import Mathlib

/-!
# The S3 image uploader

A shallow embedding of `src/tools/storage/s3/imgs3uploader.cpp`.

* A `QString` is the list of its UTF-16 code units, a `QByteArray` the list of
  its bytes.
* The body of a network reply is represented by the syntax tree of its JSON
  text, object members in the order in which the text lists them.  The Qt view
  of an object is computed from that list: `keys` are ascending and without
  repetition, and of several members with one key the last is the one read.
* A `QUrl` is kept as the text it is made from.
* The uploader object is a record of its member variables.  What the object
  does to its surroundings (widget calls, network requests, history writes,
  dialogs) is appended to `log`, oldest first; the files on disk are `files`.
* What is declared outside the source file (the PNG encoder, `History`,
  `ConfigHandler`, `ImgS3Settings::getConfigRemote`) is a field of `Env`.
* The answers of the user to `QMessageBox::question` are handed to the
  functions that may open a dialog.  A function has no result (`none`) when a
  dialog opens and no answer is left, or when it calls through a null pointer.
-/

namespace S3

/-! ## Strings and byte arrays -/

/-- A `QString`, as the list of its UTF-16 code units. -/
abbrev QString := List Nat

/-- A `QByteArray`, as the list of its bytes. -/
abbrev QByteArray := List Nat

/-- The UTF-16 code units of one character. -/
def utf16 (c : Char) : List Nat :=
  if c.toNat < 65536 then [c.toNat]
  else [55296 + (c.toNat - 65536) / 1024, 56320 + (c.toNat - 65536) % 1024]

/-- The `QString` written as a literal. -/
def qs (s : String) : QString :=
  (s.data.map utf16).flatten

/-- `QString::toLatin1`: a code unit above 0xff becomes `?`. -/
def QString.toLatin1 (s : QString) : QByteArray :=
  s.map fun u => if u > 255 then 63 else u

/-- `QString::fromLatin1`: every byte is one code unit. -/
def QString.fromLatin1 (b : QByteArray) : QString :=
  b

/-- `QString::lastIndexOf` for the one-character pattern `c`: the index of the
last occurrence, `-1` when there is none. -/
def QString.lastIndexOf : QString → Nat → Int
  | [], _ => -1
  | u :: us, c =>
    if QString.lastIndexOf us c ≥ 0 then QString.lastIndexOf us c + 1
    else if u = c then 0 else -1

/-- `QString::mid(position)`: the string from `position` to the end. -/
def QString.mid (s : QString) (position : Int) : QString :=
  s.drop position.toNat

/-- The order of `QString`s: lexicographic on the code units. -/
def QString.lt : QString → QString → Bool
  | [], [] => false
  | [], _ :: _ => true
  | _ :: _, [] => false
  | a :: as, b :: bs => decide (a < b) || (decide (a = b) && QString.lt as bs)

/-- The code unit of `/`. -/
def slash : Nat := 47

/-! ## JSON -/

/-- A JSON value as the text writes it.  The members of an object are in the
order of the text. -/
inductive QJsonValue where
  | null
  | bool (b : Bool)
  | double (d : Int)
  | string (s : QString)
  | array (a : List QJsonValue)
  | object (o : List (QString × QJsonValue))

/-- A `QJsonObject`, represented by the member list of the text it comes from. -/
abbrev QJsonObject := List (QString × QJsonValue)

/-- The bytes of a reply body read as JSON text: `none` when they are not JSON. -/
abbrev JsonText := Option QJsonValue

/-- `QJsonValue::toString()`: the string, or the empty string for any other value. -/
def QJsonValue.toString : QJsonValue → QString
  | .string s => s
  | _ => []

/-- `QJsonValue::toObject()`: the object, or the empty object for any other value. -/
def QJsonValue.toObject : QJsonValue → QJsonObject
  | .object o => o
  | _ => []

/-- The member stored under `key`: of several members with the same key the
last one of the text is the one kept. -/
def QJsonObject.find (o : QJsonObject) (key : QString) : Option QJsonValue :=
  o.foldl (fun acc m => if m.1 = key then some m.2 else acc) none

/-- `QJsonObject::operator[]` on an object that is not `const`: the value under
`key`; for an absent key a `null` member is inserted and returned.  The
inserted member changes nothing under any other key and the uploader reads no
key of an object twice, so the object itself is not threaded on. -/
def QJsonObject.value (o : QJsonObject) (key : QString) : QJsonValue :=
  (QJsonObject.find o key).getD QJsonValue.null

/-- Insertion of a key into an ascending list without repetition. -/
def QJsonObject.insertKey (k : QString) : List QString → List QString
  | [] => [k]
  | x :: xs =>
    if k = x then x :: xs
    else if QString.lt k x then k :: x :: xs
    else x :: QJsonObject.insertKey k xs

/-- `QJsonObject::keys()`: every key once, in ascending order. -/
def QJsonObject.keys (o : QJsonObject) : List QString :=
  o.foldl (fun acc m => QJsonObject.insertKey m.1 acc) []

/-- A `QJsonDocument`: an object, an array, or the null document. -/
inductive QJsonDocument where
  | null
  | ofObject (o : QJsonObject)
  | ofArray (a : List QJsonValue)

/-- `QJsonDocument::fromJson`: the null document unless the text is a JSON
object or array. -/
def QJsonDocument.fromJson : JsonText → QJsonDocument
  | some (.object o) => .ofObject o
  | some (.array a) => .ofArray a
  | _ => .null

/-- `QJsonDocument::object()`: the empty object unless the document holds one. -/
def QJsonDocument.object : QJsonDocument → QJsonObject
  | .ofObject o => o
  | _ => []

/-! ## Network and widgets -/

/-- The headers `QHttpPart::setHeader` is called with. -/
inductive KnownHeaders where
  | ContentTypeHeader
  | ContentDispositionHeader
deriving DecidableEq, Repr

/-- One part of a multipart body. -/
structure QHttpPart where
  contentType : Option QString := none
  contentDisposition : Option QString := none
  body : QByteArray := []
deriving DecidableEq, Repr

/-- `QHttpPart::setHeader`. -/
def QHttpPart.setHeader (p : QHttpPart) (h : KnownHeaders) (v : QString) : QHttpPart :=
  match h with
  | .ContentTypeHeader => { p with contentType := some v }
  | .ContentDispositionHeader => { p with contentDisposition := some v }

/-- `QHttpPart::setBody`. -/
def QHttpPart.setBody (p : QHttpPart) (b : QByteArray) : QHttpPart :=
  { p with body := b }

/-- The buttons of a `QMessageBox` that the uploader offers. -/
inductive StandardButton where
  | Yes
  | No
  | Retry
  | Cancel
deriving DecidableEq, Repr

/-- `QNetworkReply::NetworkError`, as far as the uploader tells the values apart. -/
inductive NetworkError where
  | NoError
  | UnknownNetworkError
  | UnknownServerError
  | Other (code : Nat)
deriving DecidableEq, Repr

/-- A finished `QNetworkReply`. -/
structure QNetworkReply where
  error : NetworkError
  errorString : QString
  readAll : JsonText

/-- A proxy descriptor. -/
abbrev QNetworkProxy := QString

/-- A `QNetworkAccessManager` with the proxy set on it. -/
structure QNetworkAccessManager where
  proxy : Option QNetworkProxy := none
deriving DecidableEq, Repr

/-- The captured image. -/
abbrev QPixmap := List Nat

/-- What the uploader does to its surroundings. -/
inductive Event where
  | setWindowTitle (title : QString)
  | setInfoLabelText (text : QString)
  | clearProxy
  | showWindow
  | hideWindow
  | closeWindow
  | hideSpinner
  | onUploadOk
  | newShortcut
  | sendMessage (text : QString)
  | updateRecentScreenshots
  | clipboardSetText (text : QString)
  | historySave (pixmap : QPixmap) (fileName : QString)
  | fileRemove (fileName : QString)
  | getConfigRemote (result : Bool)
  | question (title text : QString) (answer : StandardButton)
  | get (url : QString) (xApiKey : Option QString)
  | post (url : QString) (multiPart : List QHttpPart)
  | deleteResource (url : QString) (xApiKey authorization : QByteArray)
deriving DecidableEq, Repr

/-- The part of `ImgS3Settings` the uploader reads. -/
structure ImgS3Settings where
  credsUrl : QString
  xApiKey : QString
deriving DecidableEq, Repr

/-- The collaborators of the uploader that are declared outside this file. -/
structure Env where
  /-- The bytes `QPixmap::save(&buffer, "PNG")` writes. -/
  savePNG : QPixmap → QByteArray
  /-- The constant `SCREENSHOT_STORAGE_TYPE_S3`. -/
  SCREENSHOT_STORAGE_TYPE_S3 : QString
  /-- The function `History::packFileName(storageType, deleteToken, fileName)`. -/
  packFileName : QString → QString → QString → QString
  /-- The directory `History::path()`. -/
  historyPath : QString
  /-- The setting `ConfigHandler::copyAndCloseAfterUploadEnabled()`. -/
  copyAndCloseAfterUploadEnabled : Bool
  /-- The descriptor `ImgS3Settings::proxy()` returns after `clearProxy()`. -/
  proxy : Option QNetworkProxy
  /-- The function `ImgS3Settings::getConfigRemote()`: what its i-th call
  returns and the settings it leaves, given the settings it finds. -/
  getConfigRemote : Nat → ImgS3Settings → Bool × ImgS3Settings

/-- The uploader object and its surroundings. -/
structure ImgS3Uploader where
  /-- `ImgUploader::pixmap()`. -/
  pixmap : QPixmap
  /-- `ImgUploader::imageUrl().toString()`: the URL is kept as the text it was
  made from. -/
  imageUrl : QString
  resultStatus : Bool
  m_deleteToken : QString
  m_storageImageName : QString
  m_multiPart : Option (List QHttpPart)
  m_networkAMUpload : Option QNetworkAccessManager
  m_networkAMGetCreds : Option QNetworkAccessManager
  m_networkAMRemove : Option QNetworkAccessManager
  m_s3Settings : ImgS3Settings
  /-- The paths of the files on disk. -/
  files : List QString
  /-- The number of `getConfigRemote()` calls made so far. -/
  configCalls : Nat
  /-- Everything done to the surroundings, oldest first. -/
  log : List Event
deriving DecidableEq, Repr

/-! ## The uploader -/

namespace ImgS3Uploader

/-- One more entry of the log. -/
def emit (s : ImgS3Uploader) (e : Event) : ImgS3Uploader :=
  { s with log := s.log ++ [e] }

/-- The object before the body of a constructor runs: the base class holds the
capture, the strings are empty. -/
def fresh (capture : QPixmap) (settings : ImgS3Settings) (files : List QString) :
    ImgS3Uploader :=
  { pixmap := capture, imageUrl := [], resultStatus := false,
    m_deleteToken := [], m_storageImageName := [], m_multiPart := none,
    m_networkAMUpload := none, m_networkAMGetCreds := none, m_networkAMRemove := none,
    m_s3Settings := settings, files := files, configCalls := 0, log := [] }

/-- `ImgS3Uploader::init`. -/
def init (s : ImgS3Uploader) (title _label : QString) : ImgS3Uploader :=
  let s := { s with m_multiPart := none, m_networkAMUpload := none,
                    m_networkAMGetCreds := none, m_networkAMRemove := none }
  let s := { s with resultStatus := false }
  emit s (.setWindowTitle title)

/-- The constructor `ImgS3Uploader(const QPixmap& capture, QWidget* parent)`. -/
def newUpload (capture : QPixmap) (settings : ImgS3Settings) (files : List QString) :
    ImgS3Uploader :=
  init (fresh capture settings files) (qs "Upload image to S3") (qs "Uploading Image...")

/-- The constructor `ImgS3Uploader(QWidget* parent)`. -/
def newDelete (settings : ImgS3Settings) (files : List QString) : ImgS3Uploader :=
  init (fresh [] settings files) (qs "Delete image from S3") (qs "Deleting image...")

/-- `ImgS3Uploader::cleanNetworkAccessManagers`. -/
def cleanNetworkAccessManagers (s : ImgS3Uploader) : ImgS3Uploader :=
  let s := if s.m_networkAMUpload ≠ none then { s with m_networkAMUpload := none } else s
  let s := if s.m_networkAMGetCreds ≠ none then { s with m_networkAMGetCreds := none } else s
  if s.m_networkAMRemove ≠ none then { s with m_networkAMRemove := none } else s

/-- `ImgS3Uploader::removeImagePreview`. -/
def removeImagePreview (env : Env) (s : ImgS3Uploader) : ImgS3Uploader :=
  let packedFileName :=
    env.packFileName env.SCREENSHOT_STORAGE_TYPE_S3 s.m_deleteToken s.m_storageImageName
  let fullFileName := env.historyPath ++ packedFileName
  let s :=
    if fullFileName ∈ s.files then
      emit { s with files := s.files.filter (fun f => f ≠ fullFileName) }
        (.fileRemove fullFileName)
    else s
  let s := { s with m_deleteToken := [] }
  let s := { s with m_storageImageName := [] }
  { s with resultStatus := true }

/-- `ImgS3Uploader::upload`. -/
def upload (env : Env) (s : ImgS3Uploader) : ImgS3Uploader :=
  let s := { s with m_deleteToken := [] }
  let s := { s with m_storageImageName := [] }
  let s := emit s .showWindow
  let s := emit s .clearProxy
  let s := cleanNetworkAccessManagers s
  let s := { s with m_networkAMGetCreds := some {} }
  let s := { s with m_networkAMUpload := some {} }
  let s : ImgS3Uploader :=
    match env.proxy with
    | some p => { s with m_networkAMGetCreds := some { proxy := some p },
                         m_networkAMUpload := some { proxy := some p } }
    | none => s
  let xApiKey : Option QString :=
    if s.m_s3Settings.xApiKey.length > 0 then some s.m_s3Settings.xApiKey else none
  emit s (.get s.m_s3Settings.credsUrl xApiKey)

/-- `ImgS3Uploader::deleteResource`.  The request goes to the text of
`credsUrl` followed by `fileName`. -/
def deleteResource (env : Env) (s : ImgS3Uploader) (fileName deleteToken : QString) :
    ImgS3Uploader :=
  let s := emit s .clearProxy
  let s := if s.m_networkAMRemove ≠ none then { s with m_networkAMRemove := none } else s
  let s := { s with m_networkAMRemove := some {} }
  let s : ImgS3Uploader :=
    match env.proxy with
    | some p => { s with m_networkAMRemove := some { proxy := some p } }
    | none => s
  let s := { s with m_storageImageName := fileName }
  let s := { s with m_deleteToken := deleteToken }
  emit s (.deleteResource (s.m_s3Settings.credsUrl ++ fileName)
    (QString.toLatin1 s.m_s3Settings.xApiKey)
    (QString.toLatin1 (qs "Bearer ") ++ QString.toLatin1 deleteToken))

/-- The part `uploadToS3` appends for one key of `fields`. -/
def fieldPart (fields : QJsonObject) (key : QString) : QHttpPart :=
  let field := (QJsonObject.value fields key).toString
  let part : QHttpPart := {}
  let part := part.setHeader .ContentDispositionHeader (qs "form-data; name=\"" ++ key ++ qs "\"")
  part.setBody (QString.toLatin1 field)

/-- The part `uploadToS3` appends for the image. -/
def imagePart (env : Env) (pixmap : QPixmap) : QHttpPart :=
  let imagePart : QHttpPart := {}
  let imagePart := imagePart.setHeader .ContentTypeHeader (qs "image/png")
  let imagePart := imagePart.setHeader .ContentDispositionHeader (qs "form-data; name=\"file\"")
  imagePart.setBody (env.savePNG pixmap)

/-- `m_multiPart->append(part)`. -/
def appendPart (s : ImgS3Uploader) (part : QHttpPart) : ImgS3Uploader :=
  { s with m_multiPart := s.m_multiPart.map fun parts => parts ++ [part] }

/-- `ImgS3Uploader::uploadToS3`; there is no result when `m_networkAMUpload`
is the null pointer at the `post` call. -/
def uploadToS3 (env : Env) (s : ImgS3Uploader) (response : QJsonDocument) :
    Option ImgS3Uploader :=
  let s := { s with m_multiPart := some [] }
  let json := response.object
  let resultUrl := (QJsonObject.value json (qs "resultURL")).toString
  let formData := (QJsonObject.value json (qs "formData")).toObject
  let url := (QJsonObject.value formData (qs "url")).toString
  let s := { s with m_deleteToken := (QJsonObject.value json (qs "deleteToken")).toString }
  let fields := (QJsonObject.value formData (qs "fields")).toObject
  let s := (QJsonObject.keys fields).foldl (fun s key => appendPart s (fieldPart fields key)) s
  let s := appendPart s (imagePart env s.pixmap)
  let s := { s with imageUrl := resultUrl }
  match s.m_networkAMUpload with
  | none => none
  | some _ => some (emit s (.post url (s.m_multiPart.getD [])))

/-- `ImgS3Uploader::handleReplyPostUpload`. -/
def handleReplyPostUpload (env : Env) (s : ImgS3Uploader) (reply : QNetworkReply) :
    ImgS3Uploader :=
  let s := emit s .hideSpinner
  let s := { s with m_storageImageName := [] }
  let s :=
    if reply.error = .NoError then
      let imageName := s.imageUrl
      let lastSlash := QString.lastIndexOf imageName slash
      let imageName := if lastSlash ≥ 0 then QString.mid imageName (lastSlash + 1) else imageName
      let s := { s with m_storageImageName := imageName }
      let imageName :=
        env.packFileName env.SCREENSHOT_STORAGE_TYPE_S3 s.m_deleteToken imageName
      let s := emit s (.historySave s.pixmap imageName)
      let s := { s with resultStatus := true }
      if env.copyAndCloseAfterUploadEnabled then
        let s := emit s (.sendMessage (qs "URL copied to clipboard."))
        let s := emit s .updateRecentScreenshots
        let s := emit s (.clipboardSetText s.imageUrl)
        emit s .closeWindow
      else
        emit s .onUploadOk
    else
      emit s (.setInfoLabelText reply.errorString)
  emit s .newShortcut

/-- `ImgS3Uploader::handleReplyDeleteResource`; `answer` is what the user
answers if the dialog opens. -/
def handleReplyDeleteResource (env : Env) (answer : StandardButton) (s : ImgS3Uploader)
    (reply : QNetworkReply) : ImgS3Uploader :=
  let replyError := reply.error
  let s :=
    if replyError = .NoError then
      removeImagePreview env s
    else
      let s := emit s .hideWindow
      let message := qs "Unable to remove screenshot from the remote storage."
      let message :=
        if replyError = .UnknownNetworkError then
          message ++ (qs "\n" ++ qs "Network error")
        else if replyError = .UnknownServerError then
          message ++ (qs "\n" ++ (qs "Possibly it doesn" ++ [39] ++ qs "t exist anymore"))
        else message
      let message := message ++ (qs "\n\n" ++ reply.errorString)
      let message :=
        message ++
          (qs "\n\n" ++ qs "Do you want to remove screenshot from local history anyway?")
      let s := emit s (.question (qs "Remove screenshot from history?") message answer)
      if answer = .Yes then removeImagePreview env s else s
  emit s .closeWindow

/-- The call `m_s3Settings.getConfigRemote()`: its result, and the uploader
with the settings the call leaves. -/
def getConfigRemote (env : Env) (s : ImgS3Uploader) : Bool × ImgS3Uploader :=
  let r := env.getConfigRemote s.configCalls s.m_s3Settings
  (r.1, emit { s with configCalls := s.configCalls + 1, m_s3Settings := r.2 }
    (.getConfigRemote r.1))

/-- `ImgS3Uploader::retry`.  Every dialog takes the next answer of the user;
there is no result when a dialog opens and no answer is left. -/
def retry (env : Env) : List StandardButton → ImgS3Uploader → Option ImgS3Uploader
  | [], _ => none
  | answer :: answers, s =>
    let s := emit s (.setInfoLabelText (qs "S3 Creds URL is not found in your configuration file"))
    let s := emit s (.question (qs "Error")
      (qs "Unable to get s3 credentials, please check your VPN connection and try again")
      answer)
    if answer = .Retry then
      let s := emit s (.setInfoLabelText (qs "Retrieving configuration file with s3 creds..."))
      let r := getConfigRemote env s
      if !r.1 then retry env answers r.2 else some r.2
    else
      some (emit s .hideWindow)

/-- `ImgS3Uploader::handleReplyGetCreds`; `answers` are the answers of the user
to the dialogs that open, in order. -/
def handleReplyGetCreds (env : Env) (answers : List StandardButton) (s : ImgS3Uploader)
    (reply : QNetworkReply) : Option ImgS3Uploader :=
  if reply.error = .NoError then
    let response := QJsonDocument.fromJson reply.readAll
    (uploadToS3 env s response).map fun s => emit s .newShortcut
  else
    if s.m_s3Settings.credsUrl.length = 0 then
      let s := emit s (.setInfoLabelText (qs "Retrieving configuration file with s3 creds..."))
      let r := getConfigRemote env s
      let resolved := if !r.1 then retry env answers r.2 else some r.2
      resolved.map fun s =>
        let s := emit s .hideWindow
        if !s.m_s3Settings.credsUrl.isEmpty then
          let s := emit s (.setInfoLabelText (qs "Uploading Image..."))
          upload env s
        else
          emit s .newShortcut
    else
      some (emit (emit s (.setInfoLabelText reply.errorString)) .newShortcut)

end ImgS3Uploader

/-! ## The credential document as `uploadToS3` reads it -/

/-- The local `resultUrl` of `uploadToS3`. -/
def resultUrlOf (response : QJsonDocument) : QString :=
  (QJsonObject.value response.object (qs "resultURL")).toString

/-- The local `formData` of `uploadToS3`. -/
def formDataOf (response : QJsonDocument) : QJsonObject :=
  (QJsonObject.value response.object (qs "formData")).toObject

/-- The local `url` of `uploadToS3`. -/
def urlOf (response : QJsonDocument) : QString :=
  (QJsonObject.value (formDataOf response) (qs "url")).toString

/-- The delete token `uploadToS3` reads. -/
def deleteTokenOf (response : QJsonDocument) : QString :=
  (QJsonObject.value response.object (qs "deleteToken")).toString

/-- The local `fields` of `uploadToS3`. -/
def fieldsOf (response : QJsonDocument) : QJsonObject :=
  (QJsonObject.value (formDataOf response) (qs "fields")).toObject

/-- The multipart body `uploadToS3` builds. -/
def partsOf (env : Env) (pixmap : QPixmap) (response : QJsonDocument) : List QHttpPart :=
  (QJsonObject.keys (fieldsOf response)).map (ImgS3Uploader.fieldPart (fieldsOf response)) ++
    [ImgS3Uploader.imagePart env pixmap]

/-- The value of the header `Content-Disposition` of the part named `name`. -/
def formDataName (name : QString) : QString :=
  qs "form-data; name=\"" ++ name ++ qs "\""

/-! ## Reading the log -/

/-- The log entry is a call of `History::save`. -/
def Event.isHistorySave : Event → Bool
  | .historySave _ _ => true
  | _ => false

/-- The log entry is an upload POST. -/
def Event.isPost : Event → Bool
  | .post _ _ => true
  | _ => false

/-- The log entry is a credential GET, the request `upload()` issues. -/
def Event.isGet : Event → Bool
  | .get _ _ => true
  | _ => false

/-- The log entry is a dialog or a call of `getConfigRemote()`. -/
def Event.isResolution : Event → Bool
  | .question _ _ _ => true
  | .getConfigRemote _ => true
  | _ => false

/-- The log entry is a dialog. -/
def Event.isQuestion : Event → Bool
  | .question _ _ _ => true
  | _ => false

/-- The log entry is a call of `getConfigRemote()`. -/
def Event.isGetConfigRemote : Event → Bool
  | .getConfigRemote _ => true
  | _ => false

/-! ## Sessions -/

/-- The delete token and the storage image name are both empty or both
non-empty. -/
def paired (s : ImgS3Uploader) : Prop :=
  (s.m_deleteToken = [] ∧ s.m_storageImageName = []) ∨
    (s.m_deleteToken ≠ [] ∧ s.m_storageImageName ≠ [])

instance (s : ImgS3Uploader) : Decidable (paired s) := by
  unfold paired
  infer_instance

/-- One call of a member function, with any arguments. -/
inductive Step (env : Env) : ImgS3Uploader → ImgS3Uploader → Prop where
  | upload (s : ImgS3Uploader) : Step env s (ImgS3Uploader.upload env s)
  | handleReplyGetCreds (s s' : ImgS3Uploader) (answers : List StandardButton)
      (reply : QNetworkReply) :
      ImgS3Uploader.handleReplyGetCreds env answers s reply = some s' → Step env s s'
  | uploadToS3 (s s' : ImgS3Uploader) (response : QJsonDocument) :
      ImgS3Uploader.uploadToS3 env s response = some s' → Step env s s'
  | handleReplyPostUpload (s : ImgS3Uploader) (reply : QNetworkReply) :
      Step env s (ImgS3Uploader.handleReplyPostUpload env s reply)
  | deleteResource (s : ImgS3Uploader) (fileName deleteToken : QString) :
      Step env s (ImgS3Uploader.deleteResource env s fileName deleteToken)
  | handleReplyDeleteResource (s : ImgS3Uploader) (answer : StandardButton)
      (reply : QNetworkReply) :
      Step env s (ImgS3Uploader.handleReplyDeleteResource env answer s reply)
  | removeImagePreview (s : ImgS3Uploader) :
      Step env s (ImgS3Uploader.removeImagePreview env s)

/-- The calls that keep the delete token and the storage image name together:
all but `uploadToS3`, `handleReplyGetCreds` on a reply without error (which
calls it), `handleReplyPostUpload`, and `deleteResource` with one argument
empty and the other not. -/
inductive PairedStep (env : Env) : ImgS3Uploader → ImgS3Uploader → Prop where
  | upload (s : ImgS3Uploader) : PairedStep env s (ImgS3Uploader.upload env s)
  | handleReplyGetCreds (s s' : ImgS3Uploader) (answers : List StandardButton)
      (reply : QNetworkReply) :
      reply.error ≠ NetworkError.NoError →
      ImgS3Uploader.handleReplyGetCreds env answers s reply = some s' → PairedStep env s s'
  | deleteResource (s : ImgS3Uploader) (fileName deleteToken : QString) :
      (fileName = [] ↔ deleteToken = []) →
      PairedStep env s (ImgS3Uploader.deleteResource env s fileName deleteToken)
  | handleReplyDeleteResource (s : ImgS3Uploader) (answer : StandardButton)
      (reply : QNetworkReply) :
      PairedStep env s (ImgS3Uploader.handleReplyDeleteResource env answer s reply)
  | removeImagePreview (s : ImgS3Uploader) :
      PairedStep env s (ImgS3Uploader.removeImagePreview env s)

/-- The states a session reaches from a constructor by calls related by `r`. -/
inductive Reachable (r : ImgS3Uploader → ImgS3Uploader → Prop) : ImgS3Uploader → Prop where
  | newUpload (capture : QPixmap) (settings : ImgS3Settings) (files : List QString) :
      Reachable r (ImgS3Uploader.newUpload capture settings files)
  | newDelete (settings : ImgS3Settings) (files : List QString) :
      Reachable r (ImgS3Uploader.newDelete settings files)
  | step (s s' : ImgS3Uploader) : Reachable r s → r s s' → Reachable r s'

/-! ## Concrete inputs -/

/-- Collaborators for the examples: no proxy, a remote configuration that is
never reachable, so that `getConfigRemote()` returns false and changes nothing. -/
def env0 : Env :=
  { savePNG := fun p => [137, 80, 78, 71] ++ p
    SCREENSHOT_STORAGE_TYPE_S3 := qs "s3"
    packFileName := fun t tok n => t ++ (qs "-" ++ (tok ++ (qs "-" ++ n)))
    historyPath := qs "/h/"
    copyAndCloseAfterUploadEnabled := false
    proxy := none
    getConfigRemote := fun _ settings => (false, settings) }

/-- A reply without error and without body. -/
def okReply : QNetworkReply :=
  { error := .NoError, errorString := [], readAll := none }

/-- A reply that failed. -/
def failedReply : QNetworkReply :=
  { error := .UnknownServerError, errorString := qs "Not Found", readAll := none }

/-- The result URL of the example of the specification. -/
def exampleURL : QString :=
  qs "https://bucket.s3.amazonaws.com/abc/def123.png"

/-- An upload session with a configured endpoint, after `upload()`. -/
def started : ImgS3Uploader :=
  ImgS3Uploader.upload env0
    (ImgS3Uploader.newUpload [1, 2, 3] { credsUrl := qs "https://creds", xApiKey := [] } [])

/-- The session `started` with the result URL of the example and a token. -/
def posted : ImgS3Uploader :=
  { started with imageUrl := exampleURL, m_deleteToken := qs "tok" }

/-- A credential reply body: the members the broker sends, with the given
`fields` member list. -/
def credentials (fields : List (QString × QJsonValue)) : JsonText :=
  some (.object
    [(qs "resultURL", .string exampleURL),
     (qs "deleteToken", .string (qs "tok")),
     (qs "formData",
       .object [(qs "url", .string (qs "https://up")), (qs "fields", .object fields)])])

/-- A credential document whose `fields` lists the key `b` before the key `a`. -/
def docBA : JsonText :=
  credentials [(qs "b", .string (qs "1")), (qs "a", .string (qs "2"))]

/-- The credential document of the example of the specification. -/
def docExample : JsonText :=
  credentials [(qs "key", .string (qs "abc"))]

/-- A credential document with a field value outside Latin-1, the euro sign. -/
def docEuro : JsonText :=
  credentials [(qs "k", .string [8364])]

/-- The same document with a question mark as the value. -/
def docQuestion : JsonText :=
  credentials [(qs "k", .string (qs "?"))]

/-- A reply body without `formData`. -/
def docNoFormData : JsonText :=
  some (.object
    [(qs "resultURL", .string exampleURL), (qs "deleteToken", .string (qs "tok"))])

/-- A reply without error that carries `body`. -/
def credsReply (body : JsonText) : QNetworkReply :=
  { error := .NoError, errorString := [], readAll := body }

/-- The value is a JSON string. -/
def QJsonValue.isString : QJsonValue → Bool
  | .string _ => true
  | _ => false

/-- The value is a JSON object. -/
def QJsonValue.isObject : QJsonValue → Bool
  | .object _ => true
  | _ => false

/-- The shape of a well-formed credential document, in the words of the
specification: a JSON object carrying a string `resultURL`, a string
`deleteToken` and an object `formData` with a string `url` and an object
`fields`. -/
def isCredentialDocument : JsonText → Bool
  | some (.object o) =>
    (QJsonObject.value o (qs "resultURL")).isString &&
    (QJsonObject.value o (qs "deleteToken")).isString &&
    (QJsonObject.value o (qs "formData")).isObject &&
    (QJsonObject.value (QJsonObject.value o (qs "formData")).toObject (qs "url")).isString &&
    (QJsonObject.value (QJsonObject.value o (qs "formData")).toObject (qs "fields")).isObject
  | _ => false

/-- A delete session whose history holds the record of the upload
`(def123.png, tok)` and one other file. -/
def deleter : ImgS3Uploader :=
  ImgS3Uploader.newDelete { credsUrl := qs "https://creds/", xApiKey := qs "key" }
    [qs "/h/s3-tok-def123.png", qs "/h/other"]

/-- The dialog of `retry()` with the answer it gets. -/
def retryQuestion (answer : StandardButton) : Event :=
  .question (qs "Error")
    (qs "Unable to get s3 credentials, please check your VPN connection and try again") answer

/-- What one call of `retry()` does when the answer is "retry" and the
resolution fails again. -/
def retryRound : List Event :=
  [.setInfoLabelText (qs "S3 Creds URL is not found in your configuration file"),
   retryQuestion .Retry,
   .setInfoLabelText (qs "Retrieving configuration file with s3 creds..."),
   .getConfigRemote false]

/-- What the call of `retry()` does when the answer is "cancel". -/
def cancelRound : List Event :=
  [.setInfoLabelText (qs "S3 Creds URL is not found in your configuration file"),
   retryQuestion .Cancel,
   .hideWindow]

/-- The uploader after the first call of `getConfigRemote()` in
`handleReplyGetCreds`. -/
def firstAttempt (env : Env) (s : ImgS3Uploader) : ImgS3Uploader :=
  (ImgS3Uploader.getConfigRemote env
    (ImgS3Uploader.emit s
      (.setInfoLabelText (qs "Retrieving configuration file with s3 creds...")))).2

/-- The uploader after the call of `getConfigRemote()` in `retry()`, the answer
to the dialog being "retry". -/
def nextAttempt (env : Env) (s : ImgS3Uploader) : ImgS3Uploader :=
  (ImgS3Uploader.getConfigRemote env
    (ImgS3Uploader.emit
      (ImgS3Uploader.emit
        (ImgS3Uploader.emit s
          (.setInfoLabelText (qs "S3 Creds URL is not found in your configuration file")))
        (retryQuestion .Retry))
      (.setInfoLabelText (qs "Retrieving configuration file with s3 creds...")))).2

/-- The settings after `k` successive calls of `getConfigRemote()`, the first
of them being call number `i` and finding `settings`. -/
def settingsAfter (env : Env) (i : Nat) (settings : ImgS3Settings) : Nat → ImgS3Settings
  | 0 => settings
  | k + 1 => settingsAfter env (i + 1) (env.getConfigRemote i settings).2 k

/-- What call number `j` (from 0) of such a succession returns. -/
def callResult (env : Env) (i : Nat) (settings : ImgS3Settings) (j : Nat) : Bool :=
  (env.getConfigRemote (i + j) (settingsAfter env i settings j)).1

/-- The rest of `handleReplyGetCreds` once the resolution of the endpoint is
over: `hide()`, then `upload()` if the endpoint is not empty. -/
def afterResolution (env : Env) (t : ImgS3Uploader) : ImgS3Uploader :=
  if !t.m_s3Settings.credsUrl.isEmpty then
    ImgS3Uploader.upload env
      (ImgS3Uploader.emit (ImgS3Uploader.emit t .hideWindow)
        (.setInfoLabelText (qs "Uploading Image...")))
  else
    ImgS3Uploader.emit (ImgS3Uploader.emit t .hideWindow) .newShortcut

/-- Collaborators whose remote configuration delivers the endpoint at the
first call of `getConfigRemote()`. -/
def envResolving : Env :=
  { env0 with
    getConfigRemote := fun _ settings => (true, { settings with credsUrl := qs "https://creds" }) }

/-- Collaborators whose remote configuration fails at the first call of
`getConfigRemote()` and delivers the endpoint from the second call on. -/
def envResolvingLater : Env :=
  { env0 with
    getConfigRemote := fun i settings =>
      if i = 0 then (false, settings)
      else (true, { settings with credsUrl := qs "https://creds" }) }

/-- An upload session without a configured endpoint, after `upload()`. -/
def unconfigured : ImgS3Uploader :=
  ImgS3Uploader.upload env0
    (ImgS3Uploader.newUpload [1, 2, 3] { credsUrl := [], xApiKey := [] } [])

/-- The session `started` after the credential reply of the example, before
the reply to the POST. -/
def credsFetched : ImgS3Uploader :=
  (ImgS3Uploader.handleReplyGetCreds env0 [] started (credsReply docExample)).getD started

/-! # Theorems -/

/-! ## Strings -/

theorem lastIndexOf_spec (s : QString) (c : Nat) :
    (QString.lastIndexOf s c = -1 ∧ c ∉ s) ∨
      ∃ p t, s = p ++ c :: t ∧ c ∉ t ∧ QString.lastIndexOf s c = (p.length : Int) := by
  induction s with
  | nil => left; simp [QString.lastIndexOf]
  | cons u us ih =>
    rcases ih with ⟨h1, h2⟩ | ⟨p, t, hs, ht, hl⟩
    · by_cases huc : u = c
      · right
        refine ⟨[], us, by simp [huc], h2, ?_⟩
        simp [QString.lastIndexOf, h1, huc]
      · left
        refine ⟨by simp [QString.lastIndexOf, h1, huc], ?_⟩
        simp only [List.mem_cons, not_or]
        exact ⟨fun h => huc h.symm, h2⟩
    · right
      refine ⟨u :: p, t, by simp [hs], ht, ?_⟩
      have hnn : (0 : Int) ≤ (p.length : Int) := Int.ofNat_nonneg _
      simp only [QString.lastIndexOf, hl, ge_iff_le, hnn, if_true, List.length_cons]
      push_cast
      rfl

/-- The name that `handleReplyPostUpload` derives from the URL text `u`. -/
theorem imageName_spec (u : QString) :
    slash ∉ (if QString.lastIndexOf u slash ≥ 0
        then QString.mid u (QString.lastIndexOf u slash + 1) else u) ∧
    (slash ∉ u → (if QString.lastIndexOf u slash ≥ 0
        then QString.mid u (QString.lastIndexOf u slash + 1) else u) = u) ∧
    (slash ∈ u → ∃ p, u = p ++ slash :: (if QString.lastIndexOf u slash ≥ 0
        then QString.mid u (QString.lastIndexOf u slash + 1) else u)) := by
  rcases lastIndexOf_spec u slash with ⟨h1, h2⟩ | ⟨p, t, hs, ht, hl⟩
  · have hneg : ¬ ((-1 : Int) ≥ 0) := by decide
    simp only [h1, hneg, if_false]
    exact ⟨h2, fun _ => trivial, fun h => absurd h h2⟩
  · have hnn : (p.length : Int) ≥ 0 := Int.ofNat_nonneg _
    have hmid : QString.mid u ((p.length : Int) + 1) = t := by
      have : ((p.length : Int) + 1).toNat = p.length + 1 := by omega
      simp [QString.mid, this, hs]
    simp only [hl, hnn, if_true, hmid]
    refine ⟨ht, fun h => ?_, fun _ => ⟨p, hs⟩⟩
    exact absurd (by simp [hs]) h

theorem exampleURL_name :
    (if QString.lastIndexOf exampleURL slash ≥ 0
      then QString.mid exampleURL (QString.lastIndexOf exampleURL slash + 1)
      else exampleURL) = qs "def123.png" := by
  set_option maxRecDepth 100000 in decide

/-! ## The reply to the upload POST -/

open ImgS3Uploader

theorem handleReplyPostUpload_name (env : Env) (s : ImgS3Uploader) (reply : QNetworkReply)
    (h : reply.error = NetworkError.NoError) :
    (handleReplyPostUpload env s reply).m_storageImageName =
      if QString.lastIndexOf s.imageUrl slash ≥ 0
        then QString.mid s.imageUrl (QString.lastIndexOf s.imageUrl slash + 1)
        else s.imageUrl := by
  cases hc : env.copyAndCloseAfterUploadEnabled <;>
    simp [handleReplyPostUpload, emit, h, hc]

/-- C2: on a POST reply without error, the storage object name that
`handleReplyPostUpload` sets is the part of the result URL text after its last
`/`: it holds no `/`, it is the whole text when the text holds no `/`, the text
is some beginning, a `/` and the name otherwise; for the URL of the example
the name is `def123.png`. -/
theorem storageImageName_lastSegment (env : Env) (s : ImgS3Uploader) (reply : QNetworkReply)
    (h : reply.error = NetworkError.NoError) :
    slash ∉ (handleReplyPostUpload env s reply).m_storageImageName ∧
    (slash ∉ s.imageUrl →
      (handleReplyPostUpload env s reply).m_storageImageName = s.imageUrl) ∧
    (slash ∈ s.imageUrl →
      ∃ p, s.imageUrl =
        p ++ slash :: (handleReplyPostUpload env s reply).m_storageImageName) ∧
    (s.imageUrl = exampleURL →
      (handleReplyPostUpload env s reply).m_storageImageName = qs "def123.png") := by
  rw [handleReplyPostUpload_name env s reply h]
  obtain ⟨h1, h2, h3⟩ := imageName_spec s.imageUrl
  refine ⟨h1, h2, h3, fun hu => ?_⟩
  rw [hu]
  exact exampleURL_name

theorem storageImageName_lastSegment_witness :
    okReply.error = NetworkError.NoError ∧
    (handleReplyPostUpload env0 posted okReply).m_storageImageName = qs "def123.png" :=
  ⟨rfl, (storageImageName_lastSegment env0 posted okReply rfl).2.2.2 rfl⟩

theorem handleReplyPostUpload_ok (env : Env) (s : ImgS3Uploader) (reply : QNetworkReply)
    (h : reply.error = NetworkError.NoError) :
    (handleReplyPostUpload env s reply).log.filter Event.isHistorySave =
      s.log.filter Event.isHistorySave ++
        [Event.historySave s.pixmap
          (env.packFileName env.SCREENSHOT_STORAGE_TYPE_S3 s.m_deleteToken
            (handleReplyPostUpload env s reply).m_storageImageName)] ∧
    (handleReplyPostUpload env s reply).resultStatus = true ∧
    (handleReplyPostUpload env s reply).log.filter Event.isPost = s.log.filter Event.isPost ∧
    (handleReplyPostUpload env s reply).m_deleteToken = s.m_deleteToken := by
  cases hc : env.copyAndCloseAfterUploadEnabled <;>
    simp [handleReplyPostUpload, emit, h, hc, Event.isHistorySave, Event.isPost]

theorem handleReplyPostUpload_failed (env : Env) (s : ImgS3Uploader) (reply : QNetworkReply)
    (h : reply.error ≠ NetworkError.NoError) :
    handleReplyPostUpload env s reply =
      { s with m_storageImageName := [],
               log := s.log ++ [Event.hideSpinner, Event.setInfoLabelText reply.errorString,
                 Event.newShortcut] } := by
  simp [handleReplyPostUpload, emit, h]

/-- C7: `handleReplyPostUpload` writes to the history only on a reply without
error: then `History::save` is called exactly once, with the capture and the
name `packFileName(S3, deleteToken, storageImageName)`, where the storage image
name is the part of the result URL after its last `/` (`def123.png` for the
URL of the example), and `resultStatus` becomes true; on a reply with an error
there is no call of `History::save`, the storage image name is empty,
`resultStatus` and the delete token are as before and no POST is issued. -/
theorem handleReplyPostUpload_history (env : Env) (s : ImgS3Uploader) (reply : QNetworkReply) :
    (reply.error = NetworkError.NoError →
      (handleReplyPostUpload env s reply).log.filter Event.isHistorySave =
        s.log.filter Event.isHistorySave ++
          [Event.historySave s.pixmap
            (env.packFileName env.SCREENSHOT_STORAGE_TYPE_S3 s.m_deleteToken
              (handleReplyPostUpload env s reply).m_storageImageName)] ∧
      slash ∉ (handleReplyPostUpload env s reply).m_storageImageName ∧
      (slash ∉ s.imageUrl →
        (handleReplyPostUpload env s reply).m_storageImageName = s.imageUrl) ∧
      (slash ∈ s.imageUrl →
        ∃ p, s.imageUrl =
          p ++ slash :: (handleReplyPostUpload env s reply).m_storageImageName) ∧
      (s.imageUrl = exampleURL →
        (handleReplyPostUpload env s reply).m_storageImageName = qs "def123.png") ∧
      (handleReplyPostUpload env s reply).resultStatus = true ∧
      (handleReplyPostUpload env s reply).log.filter Event.isPost =
        s.log.filter Event.isPost) ∧
    (reply.error ≠ NetworkError.NoError →
      (handleReplyPostUpload env s reply).log.filter Event.isHistorySave =
        s.log.filter Event.isHistorySave ∧
      (handleReplyPostUpload env s reply).m_storageImageName = [] ∧
      (handleReplyPostUpload env s reply).resultStatus = s.resultStatus ∧
      (handleReplyPostUpload env s reply).m_deleteToken = s.m_deleteToken ∧
      (handleReplyPostUpload env s reply).log.filter Event.isPost =
        s.log.filter Event.isPost) := by
  constructor
  · intro h
    obtain ⟨a, b, c, _⟩ := handleReplyPostUpload_ok env s reply h
    refine ⟨a, ?_, ?_, ?_, ?_, b, c⟩
    all_goals rw [handleReplyPostUpload_name env s reply h]
    · exact (imageName_spec s.imageUrl).1
    · exact (imageName_spec s.imageUrl).2.1
    · exact (imageName_spec s.imageUrl).2.2
    · intro hu
      rw [hu]
      exact exampleURL_name
  · intro h
    rw [handleReplyPostUpload_failed env s reply h]
    simp [Event.isHistorySave, Event.isPost]

theorem handleReplyPostUpload_history_witness :
    (handleReplyPostUpload env0 posted okReply).log.filter Event.isHistorySave =
      [Event.historySave [1, 2, 3] (qs "s3-tok-def123.png")] ∧
    (handleReplyPostUpload env0 posted failedReply).log.filter Event.isHistorySave = [] := by
  have h1 := (handleReplyPostUpload_history env0 posted okReply).1 rfl
  have h2 := (handleReplyPostUpload_history env0 posted failedReply).2 (by decide)
  refine ⟨?_, ?_⟩
  · rw [h1.1, h1.2.2.2.2.1 rfl]
    set_option maxRecDepth 100000 in decide
  · rw [h2.1]
    set_option maxRecDepth 100000 in decide

/-! ## The order of strings and the keys of an object -/

theorem QString.lt_trans (a b c : QString) (hab : QString.lt a b = true)
    (hbc : QString.lt b c = true) : QString.lt a c = true := by
  induction a generalizing b c with
  | nil =>
    cases b with
    | nil => simp [QString.lt] at hab
    | cons y ys =>
      cases c with
      | nil => simp [QString.lt] at hbc
      | cons z zs => simp [QString.lt]
  | cons x xs ih =>
    cases b with
    | nil => simp [QString.lt] at hab
    | cons y ys =>
      cases c with
      | nil => simp [QString.lt] at hbc
      | cons z zs =>
        simp only [QString.lt, Bool.or_eq_true, Bool.and_eq_true, decide_eq_true_eq] at hab hbc ⊢
        rcases hab with hxy | ⟨hxy, hl⟩
        · rcases hbc with hyz | ⟨hyz, _⟩
          · left; omega
          · left; omega
        · rcases hbc with hyz | ⟨hyz, hl2⟩
          · left; omega
          · right; exact ⟨by omega, ih ys zs hl hl2⟩

theorem QString.lt_total (a b : QString) (hne : a ≠ b) (hab : QString.lt a b = false) :
    QString.lt b a = true := by
  induction a generalizing b with
  | nil =>
    cases b with
    | nil => exact absurd rfl hne
    | cons y ys => simp [QString.lt] at hab
  | cons x xs ih =>
    cases b with
    | nil => simp [QString.lt]
    | cons y ys =>
      simp only [QString.lt, Bool.or_eq_false_iff, Bool.and_eq_false_imp, decide_eq_false_iff_not,
        decide_eq_true_eq] at hab
      simp only [QString.lt, Bool.or_eq_true, Bool.and_eq_true, decide_eq_true_eq]
      obtain ⟨h1, h2⟩ := hab
      by_cases hxy : x = y
      · right
        refine ⟨hxy.symm, ih ys ?_ (h2 hxy)⟩
        intro h
        exact hne (by rw [hxy, h])
      · left; omega

theorem mem_insertKey (k x : QString) (l : List QString) :
    x ∈ QJsonObject.insertKey k l ↔ x = k ∨ x ∈ l := by
  induction l with
  | nil => simp [QJsonObject.insertKey]
  | cons y ys ih =>
    unfold QJsonObject.insertKey
    split
    · rename_i h
      subst h
      simp only [List.mem_cons]
      tauto
    · split
      · simp only [List.mem_cons]
      · simp only [List.mem_cons, ih]
        tauto

theorem pairwise_insertKey (k : QString) (l : List QString)
    (h : l.Pairwise fun a b => QString.lt a b = true) :
    (QJsonObject.insertKey k l).Pairwise fun a b => QString.lt a b = true := by
  induction l with
  | nil => simp [QJsonObject.insertKey]
  | cons y ys ih =>
    rw [List.pairwise_cons] at h
    unfold QJsonObject.insertKey
    split
    · exact List.pairwise_cons.mpr h
    · rename_i hky
      split
      · rename_i hlt
        refine List.pairwise_cons.mpr ⟨?_, List.pairwise_cons.mpr h⟩
        intro z hz
        rcases List.mem_cons.mp hz with rfl | hz
        · exact hlt
        · exact QString.lt_trans k y z hlt (h.1 z hz)
      · rename_i hlt
        refine List.pairwise_cons.mpr ⟨?_, ih h.2⟩
        intro z hz
        rcases (mem_insertKey k z ys).mp hz with rfl | hz
        · exact QString.lt_total z y hky (by simpa using hlt)
        · exact h.1 z hz

theorem length_insertKey (k : QString) (l : List QString) (h : k ∉ l) :
    (QJsonObject.insertKey k l).length = l.length + 1 := by
  induction l with
  | nil => simp [QJsonObject.insertKey]
  | cons y ys ih =>
    simp only [List.mem_cons, not_or] at h
    unfold QJsonObject.insertKey
    rw [if_neg h.1]
    split
    · simp
    · simp [ih h.2]

theorem foldl_insertKey_pairwise (o : QJsonObject) (acc : List QString)
    (h : acc.Pairwise fun a b => QString.lt a b = true) :
    (o.foldl (fun acc m => QJsonObject.insertKey m.1 acc) acc).Pairwise
      fun a b => QString.lt a b = true := by
  induction o generalizing acc with
  | nil => exact h
  | cons m ms ih => exact ih _ (pairwise_insertKey m.1 acc h)

theorem foldl_insertKey_mem (o : QJsonObject) (acc : List QString) (x : QString) :
    x ∈ o.foldl (fun acc m => QJsonObject.insertKey m.1 acc) acc ↔
      x ∈ acc ∨ ∃ v, (x, v) ∈ o := by
  induction o generalizing acc with
  | nil => simp
  | cons m ms ih =>
    rw [List.foldl_cons, ih, mem_insertKey]
    constructor
    · rintro ((rfl | h) | ⟨v, hv⟩)
      · exact Or.inr ⟨m.2, List.mem_cons_self _ _⟩
      · exact Or.inl h
      · exact Or.inr ⟨v, List.mem_cons_of_mem _ hv⟩
    · rintro (h | ⟨v, hv⟩)
      · exact Or.inl (Or.inr h)
      · rcases List.mem_cons.mp hv with rfl | hv
        · exact Or.inl (Or.inl rfl)
        · exact Or.inr ⟨v, hv⟩

theorem foldl_insertKey_length (o : QJsonObject) (acc : List QString)
    (hnd : (o.map Prod.fst).Nodup) (hdis : ∀ k ∈ o.map Prod.fst, k ∉ acc) :
    (o.foldl (fun acc m => QJsonObject.insertKey m.1 acc) acc).length =
      acc.length + o.length := by
  induction o generalizing acc with
  | nil => simp
  | cons m ms ih =>
    rw [List.map_cons, List.nodup_cons] at hnd
    rw [List.foldl_cons, ih _ hnd.2, length_insertKey m.1 acc (hdis m.1 (by simp))]
    · simp only [List.length_cons]; omega
    · intro k hk hmem
      rcases (mem_insertKey m.1 k acc).mp hmem with rfl | h
      · exact hnd.1 hk
      · exact hdis k (by simp only [List.map_cons, List.mem_cons]; exact Or.inr hk) h

theorem keys_pairwise (o : QJsonObject) :
    (QJsonObject.keys o).Pairwise fun a b => QString.lt a b = true :=
  foldl_insertKey_pairwise o [] List.Pairwise.nil

theorem mem_keys (o : QJsonObject) (k : QString) :
    k ∈ QJsonObject.keys o ↔ ∃ v, (k, v) ∈ o := by
  simp [QJsonObject.keys, foldl_insertKey_mem]

theorem length_keys (o : QJsonObject) (hnd : (o.map Prod.fst).Nodup) :
    (QJsonObject.keys o).length = o.length := by
  simp [QJsonObject.keys, foldl_insertKey_length o [] hnd]

theorem foldl_find_some (o : QJsonObject) (key : QString) (acc : Option QJsonValue)
    (v : QJsonValue)
    (h : o.foldl (fun acc m => if m.1 = key then some m.2 else acc) acc = some v) :
    acc = some v ∨ ∃ w, (key, w) ∈ o := by
  induction o generalizing acc with
  | nil => exact Or.inl h
  | cons m ms ih =>
    rw [List.foldl_cons] at h
    rcases ih _ h with h1 | ⟨w, hw⟩
    · by_cases hk : m.1 = key
      · exact Or.inr ⟨m.2, by rw [← hk]; exact List.mem_cons_self _ _⟩
      · rw [if_neg hk] at h1
        exact Or.inl h1
    · exact Or.inr ⟨w, List.mem_cons_of_mem _ hw⟩

theorem value_string_mem_keys (o : QJsonObject) (key v : QString)
    (h : QJsonObject.value o key = QJsonValue.string v) : key ∈ QJsonObject.keys o := by
  rw [mem_keys]
  unfold QJsonObject.value at h
  cases hf : QJsonObject.find o key with
  | none => rw [hf] at h; simp at h
  | some w =>
    rcases foldl_find_some o key none w hf with h1 | h2
    · simp at h1
    · exact h2

/-! ## The multipart body -/

theorem foldl_appendPart (f : QString → QHttpPart) (l : List QString) (s : ImgS3Uploader) :
    l.foldl (fun s key => appendPart s (f key)) s =
      { s with m_multiPart := s.m_multiPart.map fun parts => parts ++ l.map f } := by
  induction l generalizing s with
  | nil => cases s; simp
  | cons k ks ih =>
    rw [List.foldl_cons, ih]
    cases s
    simp [appendPart, Option.map_map, Function.comp_def]

theorem uploadToS3_eq (env : Env) (s : ImgS3Uploader) (response : QJsonDocument)
    (m : QNetworkAccessManager) (hm : s.m_networkAMUpload = some m) :
    uploadToS3 env s response =
      some { s with
        m_multiPart := some (partsOf env s.pixmap response)
        m_deleteToken := deleteTokenOf response
        imageUrl := resultUrlOf response
        log := s.log ++ [Event.post (urlOf response) (partsOf env s.pixmap response)] } := by
  simp only [uploadToS3, foldl_appendPart]
  simp [appendPart, emit, hm, partsOf, fieldsOf, formDataOf, urlOf, deleteTokenOf, resultUrlOf]

theorem toLatin1_roundtrip (v : QString) (h : ∀ u ∈ v, u ≤ 255) :
    QString.fromLatin1 (QString.toLatin1 v) = v := by
  induction v with
  | nil => rfl
  | cons x xs ih =>
    have hx : ¬ x > 255 := by
      have := h x (List.mem_cons_self _ _)
      omega
    have ih2 := ih fun u hu => h u (List.mem_cons_of_mem _ hu)
    simp only [QString.fromLatin1, QString.toLatin1] at ih2 ⊢
    simp [hx, ih2]

theorem partsOf_getElem (env : Env) (pixmap : QPixmap) (response : QJsonDocument)
    (i : Nat) (key : QString)
    (h : (QJsonObject.keys (fieldsOf response))[i]? = some key) :
    (partsOf env pixmap response)[i]? = some (fieldPart (fieldsOf response) key) := by
  have hi : i < (QJsonObject.keys (fieldsOf response)).length := by
    by_contra hn
    rw [List.getElem?_eq_none (Nat.le_of_not_lt hn)] at h
    exact Option.noConfusion h
  unfold partsOf
  rw [List.getElem?_append_left (by simpa using hi), List.getElem?_map, h]
  rfl

/-- C1, as amended: with the upload manager in place, `uploadToS3` builds a
body of one part per key of `formData.fields` plus one, and the i-th part is
the field part named by the i-th key in the order of `QJsonObject::keys()`,
which is the ascending order of the keys, each key of the document once,
whatever the order in which the document lists them; when the document lists
no key twice the number of keys is the number of its entries. -/
theorem uploadToS3_parts_in_key_order (env : Env) (s : ImgS3Uploader)
    (response : QJsonDocument) (m : QNetworkAccessManager)
    (hm : s.m_networkAMUpload = some m) :
    ∃ (s' : ImgS3Uploader) (parts : List QHttpPart),
      uploadToS3 env s response = some s' ∧ s'.m_multiPart = some parts ∧
      parts.length = (QJsonObject.keys (fieldsOf response)).length + 1 ∧
      (∀ (i : Nat) (key : QString), (QJsonObject.keys (fieldsOf response))[i]? = some key →
        ∃ part : QHttpPart, parts[i]? = some part ∧
          part.contentDisposition = some (formDataName key)) ∧
      (QJsonObject.keys (fieldsOf response)).Pairwise (fun a b => QString.lt a b = true) ∧
      (∀ key, key ∈ QJsonObject.keys (fieldsOf response) ↔
        ∃ v, (key, v) ∈ fieldsOf response) ∧
      (((fieldsOf response).map Prod.fst).Nodup →
        (QJsonObject.keys (fieldsOf response)).length = (fieldsOf response).length) := by
  refine ⟨_, partsOf env s.pixmap response, uploadToS3_eq env s response m hm, rfl, ?_, ?_,
    keys_pairwise _, mem_keys _, length_keys _⟩
  · simp [partsOf]
  · intro i key h
    exact ⟨_, partsOf_getElem env s.pixmap response i key h, rfl⟩

theorem uploadToS3_parts_in_key_order_witness :
    started.m_networkAMUpload = some {} ∧
    ∃ (s' : ImgS3Uploader) (parts : List QHttpPart),
      uploadToS3 env0 started (QJsonDocument.fromJson docBA) = some s' ∧
      s'.m_multiPart = some parts ∧ parts.length = 3 ∧
      ∃ part : QHttpPart, parts[0]? = some part ∧
        part.contentDisposition = some (formDataName (qs "a")) := by
  refine ⟨rfl, ?_⟩
  obtain ⟨s', parts, h1, h2, h3, h4, _⟩ :=
    uploadToS3_parts_in_key_order env0 started (QJsonDocument.fromJson docBA) {} rfl
  refine ⟨s', parts, h1, h2, ?_, h4 0 (qs "a") ?_⟩
  · rw [h3]
    set_option maxRecDepth 100000 in decide
  · set_option maxRecDepth 100000 in decide

/-- C1, counterexample: the document lists the field `b` before the field `a`,
and the body `uploadToS3` builds has the part named `a` before the part named
`b`. -/
theorem uploadToS3_reorders_fields :
    (fieldsOf (QJsonDocument.fromJson docBA)).map Prod.fst = [qs "b", qs "a"] ∧
    (uploadToS3 env0 started (QJsonDocument.fromJson docBA)).map
        (fun s' => (s'.m_multiPart.getD []).map fun part => part.contentDisposition) =
      some [some (formDataName (qs "a")), some (formDataName (qs "b")),
        some (formDataName (qs "file"))] := by
  set_option maxRecDepth 100000 in decide

/-- C8: with the upload manager in place, the last part of the body
`uploadToS3` builds is the file part, with `Content-Disposition` equal to
`form-data; name="file"`, `Content-Type` equal to `image/png` and the PNG bytes
of the capture as body; no part before it has a `Content-Type`; and when
`fields` is empty the body is this part alone. -/
theorem uploadToS3_file_part (env : Env) (s : ImgS3Uploader)
    (response : QJsonDocument) (m : QNetworkAccessManager)
    (hm : s.m_networkAMUpload = some m) :
    ∃ (s' : ImgS3Uploader) (parts : List QHttpPart) (file : QHttpPart),
      uploadToS3 env s response = some s' ∧ s'.m_multiPart = some parts ∧
      parts.getLast? = some file ∧
      file.contentDisposition = some (qs "form-data; name=\"file\"") ∧
      file.contentType = some (qs "image/png") ∧
      file.body = env.savePNG s.pixmap ∧
      (∀ (i : Nat) (part : QHttpPart), i + 1 < parts.length → parts[i]? = some part →
        part.contentType = none) ∧
      (fieldsOf response = [] → parts = [file]) := by
  refine ⟨_, partsOf env s.pixmap response, imagePart env s.pixmap,
    uploadToS3_eq env s response m hm, rfl, ?_, rfl, rfl, rfl, ?_, ?_⟩
  · simp [partsOf]
  · intro i part hi hp
    have hi2 : i < ((QJsonObject.keys (fieldsOf response)).map
        (fieldPart (fieldsOf response))).length := by
      simpa [partsOf] using hi
    unfold partsOf at hp
    rw [List.getElem?_append_left hi2, List.getElem?_map] at hp
    cases hk : (QJsonObject.keys (fieldsOf response))[i]? with
    | none => rw [hk] at hp; exact Option.noConfusion hp
    | some key =>
      rw [hk] at hp
      simp only [Option.map_some', Option.some.injEq] at hp
      rw [← hp]
      rfl
  · intro h
    simp [partsOf, h, QJsonObject.keys]

theorem uploadToS3_file_part_witness :
    started.m_networkAMUpload = some {} ∧
    ∃ (s' : ImgS3Uploader) (parts : List QHttpPart) (file : QHttpPart),
      uploadToS3 env0 started (QJsonDocument.fromJson docExample) = some s' ∧
      s'.m_multiPart = some parts ∧ parts.getLast? = some file ∧
      file.contentType = some (qs "image/png") ∧ file.body = [137, 80, 78, 71, 1, 2, 3] := by
  refine ⟨rfl, ?_⟩
  obtain ⟨s', parts, file, h1, h2, h3, _, h5, h6, _⟩ :=
    uploadToS3_file_part env0 started (QJsonDocument.fromJson docExample) {} rfl
  exact ⟨s', parts, file, h1, h2, h3, h5, h6⟩

/-- C9, as amended: with the upload manager in place, for every key under which
`fields` stores a string, the body `uploadToS3` builds has a part whose
`Content-Disposition` is `form-data; name="<key>"` and whose body is the Latin-1
encoding of the string, one byte for each code unit, a `?` for each code unit
above 0xff; the body decodes back to the string when no code unit of the string
is above 0xff. -/
theorem uploadToS3_field_body (env : Env) (s : ImgS3Uploader)
    (response : QJsonDocument) (m : QNetworkAccessManager) (key v : QString)
    (hm : s.m_networkAMUpload = some m)
    (hv : QJsonObject.value (fieldsOf response) key = QJsonValue.string v) :
    ∃ (s' : ImgS3Uploader) (parts : List QHttpPart) (part : QHttpPart),
      uploadToS3 env s response = some s' ∧ s'.m_multiPart = some parts ∧
      part ∈ parts ∧
      part.contentDisposition = some (qs "form-data; name=\"" ++ key ++ qs "\"") ∧
      part.body = QString.toLatin1 v ∧
      part.body.length = v.length ∧
      (∀ (i : Nat) (u : Nat), v[i]? = some u →
        part.body[i]? = some (if u > 255 then 63 else u)) ∧
      ((∀ u ∈ v, u ≤ 255) → QString.fromLatin1 part.body = v) := by
  have hbody : (fieldPart (fieldsOf response) key).body = QString.toLatin1 v := by
    simp [fieldPart, QHttpPart.setBody, hv, QJsonValue.toString]
  refine ⟨_, partsOf env s.pixmap response, fieldPart (fieldsOf response) key,
    uploadToS3_eq env s response m hm, rfl, ?_, rfl, hbody, ?_, ?_, ?_⟩
  · unfold partsOf
    exact List.mem_append_left _
      (List.mem_map_of_mem _ (value_string_mem_keys _ key v hv))
  · rw [hbody]; simp [QString.toLatin1]
  · intro i u hu
    rw [hbody]
    simp [QString.toLatin1, List.getElem?_map, hu]
  · intro h
    rw [hbody]
    exact toLatin1_roundtrip v h

theorem uploadToS3_field_body_witness :
    started.m_networkAMUpload = some {} ∧
    QJsonObject.value (fieldsOf (QJsonDocument.fromJson docExample)) (qs "key") =
      QJsonValue.string (qs "abc") ∧
    ∃ (s' : ImgS3Uploader) (parts : List QHttpPart) (part : QHttpPart),
      uploadToS3 env0 started (QJsonDocument.fromJson docExample) = some s' ∧
      s'.m_multiPart = some parts ∧ part ∈ parts ∧
      part.contentDisposition = some (qs "form-data; name=\"" ++ qs "key" ++ qs "\"") ∧
      QString.fromLatin1 part.body = qs "abc" := by
  refine ⟨rfl, rfl, ?_⟩
  obtain ⟨s', parts, part, h1, h2, h3, h4, _, _, _, h8⟩ :=
    uploadToS3_field_body env0 started (QJsonDocument.fromJson docExample) {} (qs "key")
      (qs "abc") rfl rfl
  exact ⟨s', parts, part, h1, h2, h3, h4, h8 (by decide)⟩

/-- C9, counterexample: the field value is the euro sign, the body of its part
is a question mark, which does not decode back to the value; the body built
for the euro sign is the body built for a question mark. -/
theorem uploadToS3_alters_non_latin1 :
    (QJsonObject.value (fieldsOf (QJsonDocument.fromJson docEuro)) (qs "k")).toString =
      [8364] ∧
    (uploadToS3 env0 started (QJsonDocument.fromJson docEuro)).map
        (fun s' => (s'.m_multiPart.getD []).map fun part => part.body) =
      some [qs "?", [137, 80, 78, 71, 1, 2, 3]] ∧
    QString.fromLatin1 (qs "?") ≠ [8364] ∧
    (uploadToS3 env0 started (QJsonDocument.fromJson docEuro)).map
        (fun s' => s'.m_multiPart) =
      (uploadToS3 env0 started (QJsonDocument.fromJson docQuestion)).map
        (fun s' => s'.m_multiPart) := by
  set_option maxRecDepth 100000 in decide

/-! ## The reply to the credential fetch -/

/-- C4, as amended: `handleReplyGetCreds` does not validate a reply without
error.  Whatever the body, with the upload manager in place it goes through
`uploadToS3`: the multipart body is built, the POST to `formData.url` is
issued, and the delete token and the result URL are set from the document, a
member that is absent or not a string being read as the empty string and one
that is absent or not an object as the empty object; for a body that is not
JSON the token, both URLs and the field parts are empty and the body is the
file part alone. -/
theorem handleReplyGetCreds_no_validation (env : Env) (answers : List StandardButton)
    (s : ImgS3Uploader) (reply : QNetworkReply) (m : QNetworkAccessManager)
    (hm : s.m_networkAMUpload = some m) (h : reply.error = NetworkError.NoError) :
    handleReplyGetCreds env answers s reply =
      some { s with
        m_multiPart := some (partsOf env s.pixmap (QJsonDocument.fromJson reply.readAll))
        m_deleteToken := deleteTokenOf (QJsonDocument.fromJson reply.readAll)
        imageUrl := resultUrlOf (QJsonDocument.fromJson reply.readAll)
        log := s.log ++
          [Event.post (urlOf (QJsonDocument.fromJson reply.readAll))
            (partsOf env s.pixmap (QJsonDocument.fromJson reply.readAll)),
           Event.newShortcut] } ∧
    (reply.readAll = none →
      partsOf env s.pixmap (QJsonDocument.fromJson reply.readAll) = [imagePart env s.pixmap] ∧
      deleteTokenOf (QJsonDocument.fromJson reply.readAll) = [] ∧
      resultUrlOf (QJsonDocument.fromJson reply.readAll) = [] ∧
      urlOf (QJsonDocument.fromJson reply.readAll) = []) := by
  constructor
  · simp [handleReplyGetCreds, h, uploadToS3_eq env s _ m hm, emit]
  · intro hb
    rw [hb]
    exact ⟨rfl, rfl, rfl, rfl⟩

theorem handleReplyGetCreds_no_validation_witness :
    started.m_networkAMUpload = some {} ∧ okReply.error = NetworkError.NoError ∧
    (handleReplyGetCreds env0 [] started okReply).map
        (fun s' => s'.log.filter Event.isPost) =
      some [Event.post [] [imagePart env0 [1, 2, 3]]] := by
  refine ⟨rfl, rfl, ?_⟩
  rw [(handleReplyGetCreds_no_validation env0 [] started okReply {} rfl rfl).1]
  set_option maxRecDepth 100000 in decide

/-- C4, counterexample: the reply has no error and its body has no `formData`;
`handleReplyGetCreds` builds the multipart body, issues the POST, and sets the
delete token and the result URL from the document. -/
theorem handleReplyGetCreds_posts_malformed :
    isCredentialDocument docNoFormData = false ∧
    (handleReplyGetCreds env0 [] started (credsReply docNoFormData)).map
        (fun s' => (s'.m_multiPart, s'.m_deleteToken, s'.imageUrl,
          s'.log.filter Event.isPost)) =
      some (some [imagePart env0 [1, 2, 3]], qs "tok", exampleURL,
        [Event.post [] [imagePart env0 [1, 2, 3]]]) := by
  set_option maxRecDepth 100000 in decide

/-! ## Deletion -/

theorem removeImagePreview_eq (env : Env) (s : ImgS3Uploader) :
    (removeImagePreview env s).files =
        s.files.filter (fun f => f ≠ env.historyPath ++
          env.packFileName env.SCREENSHOT_STORAGE_TYPE_S3 s.m_deleteToken s.m_storageImageName) ∧
      (removeImagePreview env s).resultStatus = true ∧
      (removeImagePreview env s).m_deleteToken = [] ∧
      (removeImagePreview env s).m_storageImageName = [] := by
  unfold removeImagePreview
  by_cases hmem : env.historyPath ++
      env.packFileName env.SCREENSHOT_STORAGE_TYPE_S3 s.m_deleteToken s.m_storageImageName ∈
        s.files
  · simp [hmem, emit]
  · simp only [hmem, if_false, and_self, and_true]
    symm
    rw [List.filter_eq_self]
    intro f hf
    simp only [ne_eq, decide_eq_true_eq]
    intro h
    exact hmem (h ▸ hf)

theorem deleteResource_fields (env : Env) (s : ImgS3Uploader) (fileName deleteToken : QString) :
    (deleteResource env s fileName deleteToken).files = s.files ∧
      (deleteResource env s fileName deleteToken).m_deleteToken = deleteToken ∧
      (deleteResource env s fileName deleteToken).m_storageImageName = fileName ∧
      (deleteResource env s fileName deleteToken).resultStatus = s.resultStatus := by
  unfold deleteResource
  cases env.proxy <;> simp only [emit] <;> split_ifs <;> simp

theorem handleReplyDeleteResource_removes (env : Env) (answer : StandardButton)
    (s : ImgS3Uploader) (reply : QNetworkReply)
    (h : reply.error = NetworkError.NoError ∨
      (reply.error ≠ NetworkError.NoError ∧ answer = StandardButton.Yes)) :
    (handleReplyDeleteResource env answer s reply).files =
        s.files.filter (fun f => f ≠ env.historyPath ++
          env.packFileName env.SCREENSHOT_STORAGE_TYPE_S3 s.m_deleteToken s.m_storageImageName) ∧
      (handleReplyDeleteResource env answer s reply).resultStatus = true ∧
      (handleReplyDeleteResource env answer s reply).m_deleteToken = [] ∧
      (handleReplyDeleteResource env answer s reply).m_storageImageName = [] := by
  rcases h with h | ⟨h1, h2⟩
  · simp only [handleReplyDeleteResource, h, if_true]
    exact removeImagePreview_eq env s
  · simp only [handleReplyDeleteResource, h1, h2, if_true, if_false]
    exact removeImagePreview_eq env _

/-- C5: after `deleteResource(fileName, deleteToken)`, when the delete reply
has no error, or it failed and the user answers yes, `handleReplyDeleteResource`
removes the file `path() + packFileName(S3, deleteToken, fileName)` from the
files on disk, keeps every other file and sets `resultStatus` to true; when the
reply failed and the user does not answer yes, the files, the delete token, the
storage image name and `resultStatus` are as they were; so in a session whose
`resultStatus` was false, success is reported exactly in the first case. -/
theorem handleReplyDeleteResource_purge (env : Env) (s : ImgS3Uploader)
    (fileName deleteToken : QString) (reply : QNetworkReply) (answer : StandardButton) :
    ((reply.error = NetworkError.NoError ∨
        (reply.error ≠ NetworkError.NoError ∧ answer = StandardButton.Yes)) →
      (handleReplyDeleteResource env answer
          (deleteResource env s fileName deleteToken) reply).files =
        s.files.filter (fun f => f ≠ env.historyPath ++
          env.packFileName env.SCREENSHOT_STORAGE_TYPE_S3 deleteToken fileName) ∧
      env.historyPath ++ env.packFileName env.SCREENSHOT_STORAGE_TYPE_S3 deleteToken fileName ∉
        (handleReplyDeleteResource env answer
          (deleteResource env s fileName deleteToken) reply).files ∧
      (handleReplyDeleteResource env answer
          (deleteResource env s fileName deleteToken) reply).resultStatus = true) ∧
    ((reply.error ≠ NetworkError.NoError ∧ answer ≠ StandardButton.Yes) →
      (handleReplyDeleteResource env answer
          (deleteResource env s fileName deleteToken) reply).files = s.files ∧
      (handleReplyDeleteResource env answer
          (deleteResource env s fileName deleteToken) reply).m_deleteToken = deleteToken ∧
      (handleReplyDeleteResource env answer
          (deleteResource env s fileName deleteToken) reply).m_storageImageName = fileName ∧
      (handleReplyDeleteResource env answer
          (deleteResource env s fileName deleteToken) reply).resultStatus = s.resultStatus) ∧
    (s.resultStatus = false →
      ((handleReplyDeleteResource env answer
          (deleteResource env s fileName deleteToken) reply).resultStatus = true ↔
        (reply.error = NetworkError.NoError ∨
          (reply.error ≠ NetworkError.NoError ∧ answer = StandardButton.Yes)))) := by
  have hdel := deleteResource_fields env s fileName deleteToken
  have hyes : (reply.error = NetworkError.NoError ∨
        (reply.error ≠ NetworkError.NoError ∧ answer = StandardButton.Yes)) →
      (handleReplyDeleteResource env answer
          (deleteResource env s fileName deleteToken) reply).files =
        s.files.filter (fun f => f ≠ env.historyPath ++
          env.packFileName env.SCREENSHOT_STORAGE_TYPE_S3 deleteToken fileName) ∧
      (handleReplyDeleteResource env answer
          (deleteResource env s fileName deleteToken) reply).resultStatus = true := by
    intro h
    have := handleReplyDeleteResource_removes env answer
      (deleteResource env s fileName deleteToken) reply h
    rw [hdel.1, hdel.2.1, hdel.2.2.1] at this
    exact ⟨this.1, this.2.1⟩
  have hno : (reply.error ≠ NetworkError.NoError ∧ answer ≠ StandardButton.Yes) →
      (handleReplyDeleteResource env answer
          (deleteResource env s fileName deleteToken) reply).files = s.files ∧
      (handleReplyDeleteResource env answer
          (deleteResource env s fileName deleteToken) reply).m_deleteToken = deleteToken ∧
      (handleReplyDeleteResource env answer
          (deleteResource env s fileName deleteToken) reply).m_storageImageName = fileName ∧
      (handleReplyDeleteResource env answer
          (deleteResource env s fileName deleteToken) reply).resultStatus = s.resultStatus := by
    rintro ⟨h1, h2⟩
    simp only [handleReplyDeleteResource, h1, h2, if_false, emit]
    exact hdel
  refine ⟨fun h => ?_, hno, fun hs => ⟨fun ht => ?_, fun h => (hyes h).2⟩⟩
  · refine ⟨(hyes h).1, ?_, (hyes h).2⟩
    rw [(hyes h).1]
    simp
  · by_contra hcon
    have hneg : reply.error ≠ NetworkError.NoError ∧ answer ≠ StandardButton.Yes := by
      constructor
      · exact fun h => hcon (Or.inl h)
      · intro h
        by_cases he : reply.error = NetworkError.NoError
        · exact hcon (Or.inl he)
        · exact hcon (Or.inr ⟨he, h⟩)
    rw [(hno hneg).2.2.2, hs] at ht
    exact Bool.noConfusion ht

theorem handleReplyDeleteResource_purge_witness :
    (handleReplyDeleteResource env0 StandardButton.Yes
        (deleteResource env0 deleter (qs "def123.png") (qs "tok")) failedReply).files =
      [qs "/h/other"] ∧
    (handleReplyDeleteResource env0 StandardButton.No
        (deleteResource env0 deleter (qs "def123.png") (qs "tok")) failedReply).files =
      [qs "/h/s3-tok-def123.png", qs "/h/other"] := by
  have h1 := (handleReplyDeleteResource_purge env0 deleter (qs "def123.png") (qs "tok")
    failedReply StandardButton.Yes).1 (Or.inr ⟨by decide, rfl⟩)
  have h2 := (handleReplyDeleteResource_purge env0 deleter (qs "def123.png") (qs "tok")
    failedReply StandardButton.No).2.1 ⟨by decide, by decide⟩
  refine ⟨?_, ?_⟩
  · rw [h1.1]
    set_option maxRecDepth 100000 in decide
  · rw [h2.1]
    rfl

/-! ## Resolution of a missing endpoint -/

theorem filter_flatten_replicate (p : Event → Bool) (n : Nat) (l : List Event) :
    (List.replicate n l).flatten.filter p = (List.replicate n (l.filter p)).flatten := by
  induction n with
  | zero => rfl
  | succ k ih => simp [List.replicate_succ, ih]

theorem length_flatten_replicate (n : Nat) (l : List Event) :
    (List.replicate n l).flatten.length = n * l.length := by
  induction n with
  | zero => simp
  | succ k ih =>
    simp only [List.replicate_succ, List.flatten_cons, List.length_append, ih]
    rw [Nat.succ_mul]
    omega

theorem nextAttempt_facts (env : Env) (s : ImgS3Uploader) :
    (nextAttempt env s).log =
        s.log ++
          [Event.setInfoLabelText (qs "S3 Creds URL is not found in your configuration file"),
          retryQuestion StandardButton.Retry,
          Event.setInfoLabelText (qs "Retrieving configuration file with s3 creds..."),
          Event.getConfigRemote (env.getConfigRemote s.configCalls s.m_s3Settings).1] ∧
      (nextAttempt env s).configCalls = s.configCalls + 1 ∧
      (nextAttempt env s).resultStatus = s.resultStatus ∧
      (nextAttempt env s).m_s3Settings =
        (env.getConfigRemote s.configCalls s.m_s3Settings).2 := by
  simp [nextAttempt, getConfigRemote, emit]

theorem firstAttempt_facts (env : Env) (s : ImgS3Uploader) :
    (firstAttempt env s).log =
        s.log ++ [Event.setInfoLabelText (qs "Retrieving configuration file with s3 creds..."),
          Event.getConfigRemote (env.getConfigRemote s.configCalls s.m_s3Settings).1] ∧
      (firstAttempt env s).configCalls = s.configCalls + 1 ∧
      (firstAttempt env s).resultStatus = s.resultStatus ∧
      (firstAttempt env s).m_s3Settings =
        (env.getConfigRemote s.configCalls s.m_s3Settings).2 := by
  simp [firstAttempt, getConfigRemote, emit]

theorem retry_cons_retry (env : Env)
    (hfail : ∀ i settings, (env.getConfigRemote i settings).1 = false)
    (rest : List StandardButton) (s : ImgS3Uploader) :
    retry env (StandardButton.Retry :: rest) s = retry env rest (nextAttempt env s) := by
  rw [retry]
  simp only [if_true]
  have h1 : ∀ t : ImgS3Uploader, (getConfigRemote env t).1 = false := fun t => hfail _ _
  rw [h1]
  rfl

theorem retry_rounds (env : Env)
    (hfail : ∀ i settings, (env.getConfigRemote i settings).1 = false)
    (hkeep : ∀ i settings, settings.credsUrl = [] →
      (env.getConfigRemote i settings).2.credsUrl = [])
    (n : Nat) (rest : List StandardButton) (s : ImgS3Uploader)
    (hempty : s.m_s3Settings.credsUrl = []) :
    ∃ s' : ImgS3Uploader,
      retry env (List.replicate n StandardButton.Retry ++ StandardButton.Cancel :: rest) s =
        some s' ∧
      s'.log = s.log ++ ((List.replicate n retryRound).flatten ++ cancelRound) ∧
      s'.configCalls = s.configCalls + n ∧
      s'.resultStatus = s.resultStatus ∧
      s'.m_s3Settings.credsUrl = [] := by
  induction n generalizing s with
  | zero =>
    refine ⟨emit (emit (emit s (Event.setInfoLabelText
        (qs "S3 Creds URL is not found in your configuration file")))
        (retryQuestion StandardButton.Cancel)) Event.hideWindow, ?_, ?_, rfl, rfl, hempty⟩
    · simp [retry, retryQuestion]
    · simp [emit, cancelRound]
  | succ k ih =>
    rw [List.replicate_succ, List.cons_append, retry_cons_retry env hfail]
    have hf := nextAttempt_facts env s
    obtain ⟨s', h1, h2, h3, h4, h5⟩ := ih (nextAttempt env s)
      (by rw [hf.2.2.2]; exact hkeep _ _ hempty)
    refine ⟨s', h1, ?_, ?_, ?_, h5⟩
    · rw [h2, hf.1, hfail]
      simp [retryRound, List.replicate_succ]
    · rw [h3, hf.2.1]
      omega
    · rw [h4, hf.2.2.1]

theorem handleReplyGetCreds_rounds (env : Env)
    (hfail : ∀ i settings, (env.getConfigRemote i settings).1 = false)
    (hkeep : ∀ i settings, settings.credsUrl = [] →
      (env.getConfigRemote i settings).2.credsUrl = [])
    (n : Nat) (rest : List StandardButton) (s : ImgS3Uploader) (reply : QNetworkReply)
    (herr : reply.error ≠ NetworkError.NoError) (hempty : s.m_s3Settings.credsUrl = []) :
    ∃ s' : ImgS3Uploader,
      handleReplyGetCreds env
        (List.replicate n StandardButton.Retry ++ StandardButton.Cancel :: rest) s reply =
          some s' ∧
      s'.log = s.log ++
        ([Event.setInfoLabelText (qs "Retrieving configuration file with s3 creds..."),
          Event.getConfigRemote false] ++
         ((List.replicate n retryRound).flatten ++
          (cancelRound ++ [Event.hideWindow, Event.newShortcut]))) ∧
      s'.configCalls = s.configCalls + (n + 1) ∧
      s'.resultStatus = s.resultStatus ∧
      s'.m_s3Settings.credsUrl = [] := by
  have hf := firstAttempt_facts env s
  obtain ⟨t, h1, h2, h3, h4, h5⟩ := retry_rounds env hfail hkeep n rest (firstAttempt env s)
    (by rw [hf.2.2.2]; exact hkeep _ _ hempty)
  have hfirst : ∀ u : ImgS3Uploader, (getConfigRemote env u).1 = false := fun u => hfail _ _
  have hrun : handleReplyGetCreds env
      (List.replicate n StandardButton.Retry ++ StandardButton.Cancel :: rest) s reply =
      some (emit (emit t Event.hideWindow) Event.newShortcut) := by
    unfold handleReplyGetCreds
    simp only [herr, if_false, hempty, List.length_nil, if_true, hfirst, Bool.not_false]
    have h1' : retry env
        (List.replicate n StandardButton.Retry ++ StandardButton.Cancel :: rest)
        (getConfigRemote env (emit s (Event.setInfoLabelText
          (qs "Retrieving configuration file with s3 creds...")))).2 = some t := h1
    rw [h1']
    simp [emit, h5]
  refine ⟨_, hrun, ?_, ?_, ?_, ?_⟩
  · simp only [emit]
    rw [h2, hf.1, hfail]
    simp
  · simp only [emit]
    rw [h3, hf.2.1]
    omega
  · simp only [emit]
    rw [h4, hf.2.2.1]
  · simp only [emit]
    exact h5

/-- C6: a credential fetch fails, the endpoint is empty, and every call of
`getConfigRemote()` returns false and leaves the endpoint empty.  With n answers
"retry" followed by "cancel", `handleReplyGetCreds` returns; the calls of
`getConfigRemote()` and the dialogs it made are, in order, one call, then n
times a dialog answered "retry" followed by a call, then one dialog answered
"cancel" and nothing after it: n+1 calls and n+1 dialogs, whatever answers
would follow; no credential GET is issued, `resultStatus` is as before and the
endpoint is still empty. -/
theorem handleReplyGetCreds_retry_consent (env : Env) (n : Nat) (rest : List StandardButton)
    (s : ImgS3Uploader) (reply : QNetworkReply)
    (herr : reply.error ≠ NetworkError.NoError) (hempty : s.m_s3Settings.credsUrl = [])
    (hfail : ∀ i settings, (env.getConfigRemote i settings).1 = false)
    (hkeep : ∀ i settings, settings.credsUrl = [] →
      (env.getConfigRemote i settings).2.credsUrl = []) :
    ∃ s' : ImgS3Uploader,
      handleReplyGetCreds env
        (List.replicate n StandardButton.Retry ++ StandardButton.Cancel :: rest) s reply =
          some s' ∧
      s'.log.filter Event.isResolution =
        s.log.filter Event.isResolution ++
          (Event.getConfigRemote false ::
            ((List.replicate n
                [retryQuestion StandardButton.Retry, Event.getConfigRemote false]).flatten ++
              [retryQuestion StandardButton.Cancel])) ∧
      (s'.log.filter Event.isGetConfigRemote).length =
        (s.log.filter Event.isGetConfigRemote).length + (n + 1) ∧
      (s'.log.filter Event.isQuestion).length =
        (s.log.filter Event.isQuestion).length + (n + 1) ∧
      s'.configCalls = s.configCalls + (n + 1) ∧
      s'.log.filter Event.isGet = s.log.filter Event.isGet ∧
      s'.resultStatus = s.resultStatus ∧
      s'.m_s3Settings.credsUrl = [] := by
  obtain ⟨s', h1, h2, h3, h4, h5⟩ :=
    handleReplyGetCreds_rounds env hfail hkeep n rest s reply herr hempty
  refine ⟨s', h1, ?_, ?_, ?_, h3, ?_, h4, h5⟩
  · rw [h2]
    simp [List.filter_append, filter_flatten_replicate, retryRound, cancelRound, retryQuestion,
      Event.isResolution]
  · rw [h2]
    simp [List.filter_append, filter_flatten_replicate, length_flatten_replicate, retryRound,
      cancelRound, retryQuestion, Event.isGetConfigRemote]
  · rw [h2]
    simp [List.filter_append, filter_flatten_replicate, length_flatten_replicate, retryRound,
      cancelRound, retryQuestion, Event.isQuestion]
  · rw [h2]
    simp [List.filter_append, filter_flatten_replicate, retryRound, cancelRound, retryQuestion,
      Event.isGet]

theorem handleReplyGetCreds_retry_consent_witness :
    failedReply.error ≠ NetworkError.NoError ∧ unconfigured.m_s3Settings.credsUrl = [] ∧
    (∀ i settings, (env0.getConfigRemote i settings).1 = false) ∧
    ∃ s' : ImgS3Uploader,
      handleReplyGetCreds env0
        (List.replicate 2 StandardButton.Retry ++ StandardButton.Cancel :: [StandardButton.Retry])
        unconfigured failedReply = some s' ∧
      (s'.log.filter Event.isGetConfigRemote).length = 3 ∧
      (s'.log.filter Event.isQuestion).length = 3 ∧
      s'.resultStatus = false := by
  refine ⟨by decide, rfl, fun _ _ => rfl, ?_⟩
  obtain ⟨s', h1, _, h3, h4, _, _, h7, _⟩ :=
    handleReplyGetCreds_retry_consent env0 2 [StandardButton.Retry] unconfigured failedReply
      (by decide) rfl (fun _ _ => rfl) (fun _ _ h => h)
  exact ⟨s', h1, h3, h4, h7⟩

theorem getConfigRemote_keeps (env : Env) (s : ImgS3Uploader) :
    (getConfigRemote env s).2.log.filter Event.isGet = s.log.filter Event.isGet ∧
      (getConfigRemote env s).2.m_deleteToken = s.m_deleteToken ∧
      (getConfigRemote env s).2.m_storageImageName = s.m_storageImageName ∧
      (getConfigRemote env s).2.resultStatus = s.resultStatus := by
  simp [getConfigRemote, emit, Event.isGet]

theorem retry_keeps (env : Env) (answers : List StandardButton) (s s' : ImgS3Uploader)
    (h : retry env answers s = some s') :
    s'.log.filter Event.isGet = s.log.filter Event.isGet ∧
      s'.m_deleteToken = s.m_deleteToken ∧
      s'.m_storageImageName = s.m_storageImageName ∧
      s'.resultStatus = s.resultStatus := by
  induction answers generalizing s with
  | nil => simp [retry] at h
  | cons a rest ih =>
    rw [retry] at h
    by_cases ha : a = StandardButton.Retry
    · simp only [ha, if_true] at h
      have hk := getConfigRemote_keeps env
        (emit (emit (emit s (Event.setInfoLabelText
            (qs "S3 Creds URL is not found in your configuration file")))
          (Event.question (qs "Error")
            (qs "Unable to get s3 credentials, please check your VPN connection and try again")
            StandardButton.Retry))
          (Event.setInfoLabelText (qs "Retrieving configuration file with s3 creds...")))
      have hbase : ∀ t : ImgS3Uploader,
          (t.log.filter Event.isGet =
            (emit (emit (emit s (Event.setInfoLabelText
                (qs "S3 Creds URL is not found in your configuration file")))
              (Event.question (qs "Error")
                (qs "Unable to get s3 credentials, please check your VPN connection and try again")
                StandardButton.Retry))
              (Event.setInfoLabelText
                (qs "Retrieving configuration file with s3 creds..."))).log.filter Event.isGet) →
          t.log.filter Event.isGet = s.log.filter Event.isGet := by
        intro t ht
        rw [ht]
        simp [emit, Event.isGet]
      split at h
      · obtain ⟨h1, h2, h3, h4⟩ := ih _ h
        exact ⟨hbase _ (h1.trans hk.1), h2.trans hk.2.1, h3.trans hk.2.2.1, h4.trans hk.2.2.2⟩
      · simp only [Option.some.injEq] at h
        subst h
        exact ⟨hbase _ hk.1, hk.2.1, hk.2.2.1, hk.2.2.2⟩
    · simp only [ha, if_false, Option.some.injEq] at h
      subst h
      simp [emit, Event.isGet]

theorem retry_returns (env : Env) (answers : List StandardButton) (s : ImgS3Uploader)
    (h : ∃ a ∈ answers, a ≠ StandardButton.Retry) :
    ∃ s' : ImgS3Uploader, retry env answers s = some s' := by
  induction answers generalizing s with
  | nil =>
    obtain ⟨a, ha, _⟩ := h
    simp at ha
  | cons a rest ih =>
    rw [retry]
    by_cases ha : a = StandardButton.Retry
    · simp only [ha, if_true]
      split
      · apply ih
        obtain ⟨b, hb, hne⟩ := h
        rcases List.mem_cons.mp hb with rfl | hb
        · exact absurd ha hne
        · exact ⟨b, hb, hne⟩
      · exact ⟨_, rfl⟩
    · simp only [ha, if_false]
      exact ⟨_, rfl⟩

theorem upload_facts (env : Env) (s : ImgS3Uploader) :
    (upload env s).log.filter Event.isGet =
        s.log.filter Event.isGet ++
          [Event.get s.m_s3Settings.credsUrl
            (if s.m_s3Settings.xApiKey.length > 0 then some s.m_s3Settings.xApiKey else none)] ∧
      (upload env s).m_s3Settings = s.m_s3Settings ∧
      (upload env s).m_deleteToken = [] ∧
      (upload env s).m_storageImageName = [] ∧
      (upload env s).resultStatus = s.resultStatus ∧
      (upload env s).m_networkAMUpload ≠ none := by
  unfold upload cleanNetworkAccessManagers
  cases env.proxy <;> simp [emit, Event.isGet, List.filter_append] <;> split_ifs <;>
    simp [Event.isGet]

theorem handleReplyGetCreds_resolved (env : Env) (answers : List StandardButton)
    (s s' : ImgS3Uploader) (reply : QNetworkReply)
    (herr : reply.error ≠ NetworkError.NoError) (hempty : s.m_s3Settings.credsUrl = [])
    (h : handleReplyGetCreds env answers s reply = some s') :
    ∃ t : ImgS3Uploader, t.log.filter Event.isGet = s.log.filter Event.isGet ∧
      t.m_deleteToken = s.m_deleteToken ∧
      t.m_storageImageName = s.m_storageImageName ∧
      t.resultStatus = s.resultStatus ∧
      s' = (if !t.m_s3Settings.credsUrl.isEmpty then
          upload env (emit (emit t Event.hideWindow)
            (Event.setInfoLabelText (qs "Uploading Image...")))
        else emit (emit t Event.hideWindow) Event.newShortcut) := by
  unfold handleReplyGetCreds at h
  simp only [herr, if_false, hempty, List.length_nil, if_true] at h
  have hk := getConfigRemote_keeps env
    (emit s (Event.setInfoLabelText (qs "Retrieving configuration file with s3 creds...")))
  have hk1 : (getConfigRemote env (emit s (Event.setInfoLabelText
      (qs "Retrieving configuration file with s3 creds...")))).2.log.filter Event.isGet =
      s.log.filter Event.isGet := by
    rw [hk.1]
    simp [emit, Event.isGet]
  split at h
  · cases hr : retry env answers (getConfigRemote env (emit s (Event.setInfoLabelText
        (qs "Retrieving configuration file with s3 creds...")))).2 with
    | none => rw [hr] at h; simp at h
    | some t =>
      rw [hr] at h
      simp only [Option.map_some', Option.some.injEq] at h
      have hrk := retry_keeps env answers _ t hr
      exact ⟨t, hrk.1.trans hk1, hrk.2.1.trans hk.2.1, hrk.2.2.1.trans hk.2.2.1,
        hrk.2.2.2.trans hk.2.2.2, h.symm⟩
  · simp only [Option.map_some', Option.some.injEq] at h
    exact ⟨_, hk1, hk.2.1, hk.2.2.1, hk.2.2.2, h.symm⟩

theorem callResult_succ (env : Env) (i : Nat) (settings : ImgS3Settings) (j : Nat) :
    callResult env i settings (j + 1) =
      callResult env (i + 1) (env.getConfigRemote i settings).2 j := by
  simp only [callResult, settingsAfter]
  rw [show i + (j + 1) = i + 1 + j by omega]

theorem callResult_zero (env : Env) (i : Nat) (settings : ImgS3Settings) :
    callResult env i settings 0 = (env.getConfigRemote i settings).1 := rfl

theorem retry_cons_retry_eq (env : Env) (rest : List StandardButton) (t : ImgS3Uploader) :
    retry env (StandardButton.Retry :: rest) t =
      if (env.getConfigRemote t.configCalls t.m_s3Settings).1 then some (nextAttempt env t)
      else retry env rest (nextAttempt env t) := by
  rw [retry]
  simp only [if_true]
  show (if !(env.getConfigRemote t.configCalls t.m_s3Settings).1 then
      retry env rest (nextAttempt env t) else some (nextAttempt env t)) = _
  cases (env.getConfigRemote t.configCalls t.m_s3Settings).1 <;> rfl

theorem retry_cons_other (env : Env) (a : StandardButton) (rest : List StandardButton)
    (t : ImgS3Uploader) (ha : a ≠ StandardButton.Retry) :
    retry env (a :: rest) t =
      some (emit (emit (emit t (Event.setInfoLabelText
        (qs "S3 Creds URL is not found in your configuration file")))
        (retryQuestion a)) Event.hideWindow) := by
  rw [retry]
  simp only [ha, if_false]
  rfl

theorem retry_calls (env : Env) (answers : List StandardButton) (t t' : ImgS3Uploader)
    (h : retry env answers t = some t') :
    ∃ j : Nat, t'.configCalls = t.configCalls + j ∧
      t'.m_s3Settings = settingsAfter env t.configCalls t.m_s3Settings j ∧
      (t'.log.filter Event.isGetConfigRemote).length =
        (t.log.filter Event.isGetConfigRemote).length + j ∧
      (∀ i : Nat, i + 1 < j → callResult env t.configCalls t.m_s3Settings i = false) ∧
      answers.take j = List.replicate j StandardButton.Retry ∧
      ((j = 0 ∨ callResult env t.configCalls t.m_s3Settings (j - 1) = false) →
        ∃ a, answers[j]? = some a ∧ a ≠ StandardButton.Retry) := by
  induction answers generalizing t with
  | nil => simp [retry] at h
  | cons a rest ih =>
    by_cases ha : a = StandardButton.Retry
    · subst ha
      rw [retry_cons_retry_eq] at h
      have hf := nextAttempt_facts env t
      have hlog : ((nextAttempt env t).log.filter Event.isGetConfigRemote).length =
          (t.log.filter Event.isGetConfigRemote).length + 1 := by
        rw [hf.1]
        simp [List.filter_append, Event.isGetConfigRemote, retryQuestion]
      cases hc : (env.getConfigRemote t.configCalls t.m_s3Settings).1 with
      | true =>
        rw [hc] at h
        simp only [if_true, Option.some.injEq] at h
        subst h
        refine ⟨1, hf.2.1, hf.2.2.2, hlog, ?_, rfl, ?_⟩
        · intro i hi
          omega
        · rintro (h0 | h0)
          · omega
          · rw [Nat.sub_self, callResult_zero, hc] at h0
            exact Bool.noConfusion h0
      | false =>
        rw [hc] at h
        simp only [Bool.false_eq_true, if_false] at h
        obtain ⟨j, h1, h2, h3, h4, h5, h6⟩ := ih (nextAttempt env t) h
        refine ⟨j + 1, ?_, ?_, ?_, ?_, ?_, ?_⟩
        · rw [h1, hf.2.1]
          omega
        · rw [h2, hf.2.1, hf.2.2.2]
          rfl
        · rw [h3, hlog]
          omega
        · intro i hi
          cases i with
          | zero => rw [callResult_zero]; exact hc
          | succ i' =>
            rw [callResult_succ]
            have := h4 i' (by omega)
            rw [hf.2.1, hf.2.2.2] at this
            exact this
        · simp [List.take, List.replicate_succ, h5]
        · intro _
          have hpre : j = 0 ∨
              callResult env (nextAttempt env t).configCalls (nextAttempt env t).m_s3Settings
                (j - 1) = false := by
            cases j with
            | zero => exact Or.inl rfl
            | succ j' =>
              right
              have hcall :
                  callResult env t.configCalls t.m_s3Settings (j' + 1 + 1 - 1) = false := by
                rename_i hyp
                rcases hyp with h0 | h0
                · omega
                · exact h0
              rw [show j' + 1 + 1 - 1 = j' + 1 by omega, callResult_succ] at hcall
              rw [hf.2.1, hf.2.2.2]
              simpa using hcall
          obtain ⟨b, hb1, hb2⟩ := h6 hpre
          exact ⟨b, by simpa using hb1, hb2⟩
    · rw [retry_cons_other env a rest t ha, Option.some.injEq] at h
      subst h
      refine ⟨0, rfl, rfl, ?_, ?_, rfl, ?_⟩
      · simp [emit, List.filter_append, Event.isGetConfigRemote, retryQuestion]
      · intro i hi
        omega
      · intro _
        exact ⟨a, by simp, ha⟩

theorem upload_keeps (env : Env) (s : ImgS3Uploader) :
    (upload env s).configCalls = s.configCalls ∧
      (upload env s).log.filter Event.isGetConfigRemote =
        s.log.filter Event.isGetConfigRemote ∧
      (upload env s).log.filter Event.isQuestion = s.log.filter Event.isQuestion := by
  unfold upload cleanNetworkAccessManagers
  cases env.proxy <;>
    simp [emit, Event.isGetConfigRemote, Event.isQuestion, List.filter_append] <;>
    split_ifs <;>
    simp [Event.isGetConfigRemote, Event.isQuestion]

theorem afterResolution_facts (env : Env) (t : ImgS3Uploader) :
    (afterResolution env t).configCalls = t.configCalls ∧
      (afterResolution env t).m_s3Settings = t.m_s3Settings ∧
      (afterResolution env t).log.filter Event.isGetConfigRemote =
        t.log.filter Event.isGetConfigRemote ∧
      (afterResolution env t).log.filter Event.isQuestion =
        t.log.filter Event.isQuestion ∧
      (t.m_s3Settings.credsUrl ≠ [] →
        (afterResolution env t).log.filter Event.isGet =
          t.log.filter Event.isGet ++
            [Event.get t.m_s3Settings.credsUrl
              (if t.m_s3Settings.xApiKey.length > 0 then some t.m_s3Settings.xApiKey
                else none)]) ∧
      (t.m_s3Settings.credsUrl = [] →
        (afterResolution env t).log.filter Event.isGet = t.log.filter Event.isGet) := by
  by_cases hc : t.m_s3Settings.credsUrl = []
  · have h : afterResolution env t = emit (emit t Event.hideWindow) Event.newShortcut := by
      simp [afterResolution, hc]
    rw [h]
    refine ⟨rfl, rfl, ?_, ?_, fun hne => absurd hc hne, fun _ => ?_⟩ <;>
      simp [emit, List.filter_append, Event.isGetConfigRemote, Event.isQuestion, Event.isGet]
  · have hne : t.m_s3Settings.credsUrl.isEmpty = false := by
      cases hu : t.m_s3Settings.credsUrl with
      | nil => exact absurd hu hc
      | cons _ _ => rfl
    have h : afterResolution env t =
        upload env (emit (emit t Event.hideWindow)
          (Event.setInfoLabelText (qs "Uploading Image..."))) := by
      simp [afterResolution, hne]
    have hu := upload_facts env (emit (emit t Event.hideWindow)
      (Event.setInfoLabelText (qs "Uploading Image...")))
    have hk := upload_keeps env (emit (emit t Event.hideWindow)
      (Event.setInfoLabelText (qs "Uploading Image...")))
    rw [h]
    refine ⟨hk.1, hu.2.1, ?_, ?_, fun _ => ?_, fun he => absurd he hc⟩
    · rw [hk.2.1]
      simp [emit, List.filter_append, Event.isGetConfigRemote]
    · rw [hk.2.2]
      simp [emit, List.filter_append, Event.isQuestion]
    · rw [hu.1]
      simp [emit, List.filter_append, Event.isGet]

theorem handleReplyGetCreds_failed_eq (env : Env) (answers : List StandardButton)
    (s : ImgS3Uploader) (reply : QNetworkReply)
    (herr : reply.error ≠ NetworkError.NoError) (hempty : s.m_s3Settings.credsUrl = []) :
    handleReplyGetCreds env answers s reply =
      (if (env.getConfigRemote s.configCalls s.m_s3Settings).1 then some (firstAttempt env s)
        else retry env answers (firstAttempt env s)).map (afterResolution env) := by
  unfold handleReplyGetCreds
  simp only [herr, if_false, hempty, List.length_nil, if_true]
  show Option.map (afterResolution env)
      (if !(env.getConfigRemote s.configCalls s.m_s3Settings).1 then
        retry env answers (firstAttempt env s) else some (firstAttempt env s)) = _
  cases (env.getConfigRemote s.configCalls s.m_s3Settings).1 <;> rfl

theorem firstAttempt_logs (env : Env) (s : ImgS3Uploader) :
    ((firstAttempt env s).log.filter Event.isGetConfigRemote).length =
        (s.log.filter Event.isGetConfigRemote).length + 1 ∧
      (firstAttempt env s).log.filter Event.isGet = s.log.filter Event.isGet ∧
      (firstAttempt env s).log.filter Event.isQuestion = s.log.filter Event.isQuestion := by
  rw [(firstAttempt_facts env s).1]
  simp [List.filter_append, Event.isGetConfigRemote, Event.isGet, Event.isQuestion]

theorem handleReplyGetCreds_resolution (env : Env) (answers : List StandardButton)
    (s s' : ImgS3Uploader) (reply : QNetworkReply)
    (herr : reply.error ≠ NetworkError.NoError) (hempty : s.m_s3Settings.credsUrl = [])
    (h : handleReplyGetCreds env answers s reply = some s') :
    ∃ (t : ImgS3Uploader) (k : Nat), s' = afterResolution env t ∧ 1 ≤ k ∧
      t.configCalls = s.configCalls + k ∧
      t.m_s3Settings = settingsAfter env s.configCalls s.m_s3Settings k ∧
      (t.log.filter Event.isGetConfigRemote).length =
        (s.log.filter Event.isGetConfigRemote).length + k ∧
      (∀ i : Nat, i + 1 < k → callResult env s.configCalls s.m_s3Settings i = false) ∧
      answers.take (k - 1) = List.replicate (k - 1) StandardButton.Retry ∧
      (callResult env s.configCalls s.m_s3Settings (k - 1) = false →
        ∃ a, answers[k - 1]? = some a ∧ a ≠ StandardButton.Retry) ∧
      t.log.filter Event.isGet = s.log.filter Event.isGet := by
  rw [handleReplyGetCreds_failed_eq env answers s reply herr hempty] at h
  have hf := firstAttempt_facts env s
  have hl := firstAttempt_logs env s
  cases hc : (env.getConfigRemote s.configCalls s.m_s3Settings).1 with
  | true =>
    rw [hc] at h
    simp only [if_true, Option.map_some', Option.some.injEq] at h
    refine ⟨firstAttempt env s, 1, h.symm, le_refl 1, hf.2.1, hf.2.2.2, hl.1, ?_, rfl, ?_,
      hl.2.1⟩
    · intro i hi
      omega
    · intro h0
      rw [Nat.sub_self, callResult_zero, hc] at h0
      exact Bool.noConfusion h0
  | false =>
    rw [hc] at h
    simp only [Bool.false_eq_true, if_false] at h
    cases hr : retry env answers (firstAttempt env s) with
    | none => rw [hr] at h; simp at h
    | some t =>
      rw [hr] at h
      simp only [Option.map_some', Option.some.injEq] at h
      obtain ⟨j, h1, h2, h3, h4, h5, h6⟩ := retry_calls env answers _ t hr
      refine ⟨t, j + 1, h.symm, by omega, ?_, ?_, ?_, ?_, ?_, ?_, ?_⟩
      · rw [h1, hf.2.1]
        omega
      · rw [h2, hf.2.1, hf.2.2.2]
        rfl
      · rw [h3, hl.1]
        omega
      · intro i hi
        cases i with
        | zero => rw [callResult_zero]; exact hc
        | succ i' =>
          rw [callResult_succ]
          have := h4 i' (by omega)
          rw [hf.2.1, hf.2.2.2] at this
          exact this
      · simpa using h5
      · intro h0
        rw [Nat.add_sub_cancel] at h0 ⊢
        apply h6
        cases j with
        | zero => exact Or.inl rfl
        | succ j' =>
          right
          rw [callResult_succ] at h0
          rw [hf.2.1, hf.2.2.2]
          simpa using h0
      · rw [(retry_keeps env answers _ t hr).1]
        exact hl.2.1

/-- C10: on a failed credential fetch, when the endpoint is not empty
`handleReplyGetCreds` only shows the error string of the reply: it calls no
`getConfigRemote()`, opens no dialog and issues no request.  When the endpoint
is empty and the handler returns, it has called `getConfigRemote()` k times,
k at least 1: every call before the last returned false and was followed by
the answer "retry", and either the last call returned true or the answer that
followed it was not "retry"; the settings are those the k calls leave, and the
handler has issued one credential GET, to the endpoint, if that endpoint is
not empty, and none if it is still empty.  The handler returns whenever the
answers of the user hold one that is not "retry", and, without any dialog,
whenever the first call of `getConfigRemote()` returns true. -/
theorem handleReplyGetCreds_failure (env : Env) (answers : List StandardButton)
    (s : ImgS3Uploader) (reply : QNetworkReply)
    (herr : reply.error ≠ NetworkError.NoError) :
    (s.m_s3Settings.credsUrl ≠ [] →
      handleReplyGetCreds env answers s reply =
        some { s with log := s.log ++
          [Event.setInfoLabelText reply.errorString, Event.newShortcut] }) ∧
    (s.m_s3Settings.credsUrl = [] →
      ∀ s' : ImgS3Uploader, handleReplyGetCreds env answers s reply = some s' →
        (∃ k : Nat, 1 ≤ k ∧
          s'.configCalls = s.configCalls + k ∧
          (s'.log.filter Event.isGetConfigRemote).length =
            (s.log.filter Event.isGetConfigRemote).length + k ∧
          s'.m_s3Settings = settingsAfter env s.configCalls s.m_s3Settings k ∧
          (∀ i : Nat, i + 1 < k → callResult env s.configCalls s.m_s3Settings i = false) ∧
          answers.take (k - 1) = List.replicate (k - 1) StandardButton.Retry ∧
          (callResult env s.configCalls s.m_s3Settings (k - 1) = false →
            ∃ a, answers[k - 1]? = some a ∧ a ≠ StandardButton.Retry)) ∧
        (s'.m_s3Settings.credsUrl ≠ [] →
          s'.log.filter Event.isGet =
            s.log.filter Event.isGet ++
              [Event.get s'.m_s3Settings.credsUrl
                (if s'.m_s3Settings.xApiKey.length > 0
                  then some s'.m_s3Settings.xApiKey else none)]) ∧
        (s'.m_s3Settings.credsUrl = [] →
          s'.log.filter Event.isGet = s.log.filter Event.isGet)) ∧
    (s.m_s3Settings.credsUrl = [] → (∃ a ∈ answers, a ≠ StandardButton.Retry) →
      ∃ s' : ImgS3Uploader, handleReplyGetCreds env answers s reply = some s') ∧
    (s.m_s3Settings.credsUrl = [] →
      (env.getConfigRemote s.configCalls s.m_s3Settings).1 = true →
      ∃ s' : ImgS3Uploader, handleReplyGetCreds env answers s reply = some s' ∧
        s'.configCalls = s.configCalls + 1 ∧
        s'.m_s3Settings = (env.getConfigRemote s.configCalls s.m_s3Settings).2 ∧
        s'.log.filter Event.isQuestion = s.log.filter Event.isQuestion) := by
  refine ⟨fun hne => ?_, fun hempty s' h => ?_, fun hempty hans => ?_, fun hempty hc => ?_⟩
  · have hlen : ¬ s.m_s3Settings.credsUrl.length = 0 := by
      intro h
      exact hne (List.length_eq_zero.mp h)
    simp [handleReplyGetCreds, herr, hlen, emit]
  · obtain ⟨t, k, hs', hk, h1, h2, h3, h4, h5, h6, h7⟩ :=
      handleReplyGetCreds_resolution env answers s s' reply herr hempty h
    have ha := afterResolution_facts env t
    subst hs'
    refine ⟨⟨k, hk, ?_, ?_, ?_, h4, h5, h6⟩, ?_, ?_⟩
    · rw [ha.1, h1]
    · rw [ha.2.2.1, h3]
    · rw [ha.2.1, h2]
    · intro hne
      rw [ha.2.1] at hne ⊢
      rw [ha.2.2.2.2.1 hne, h7]
    · intro he
      rw [ha.2.1] at he
      rw [ha.2.2.2.2.2 he, h7]
  · rw [handleReplyGetCreds_failed_eq env answers s reply herr hempty]
    cases (env.getConfigRemote s.configCalls s.m_s3Settings).1 with
    | true => exact ⟨_, rfl⟩
    | false =>
      obtain ⟨t, ht⟩ := retry_returns env answers (firstAttempt env s) hans
      simp only [Bool.false_eq_true, if_false, ht]
      exact ⟨_, rfl⟩
  · rw [handleReplyGetCreds_failed_eq env answers s reply herr hempty, hc]
    have ha := afterResolution_facts env (firstAttempt env s)
    have hf := firstAttempt_facts env s
    have hl := firstAttempt_logs env s
    refine ⟨afterResolution env (firstAttempt env s), rfl, ?_, ?_, ?_⟩
    · rw [ha.1, hf.2.1]
    · rw [ha.2.1, hf.2.2.2]
    · rw [ha.2.2.2.1, hl.2.2]

theorem handleReplyGetCreds_failure_witness :
    failedReply.error ≠ NetworkError.NoError ∧
    handleReplyGetCreds env0 [] started failedReply =
      some { started with log := started.log ++
        [Event.setInfoLabelText (qs "Not Found"), Event.newShortcut] } ∧
    (∃ s' : ImgS3Uploader,
      handleReplyGetCreds envResolving [] unconfigured failedReply = some s' ∧
      s'.m_s3Settings.credsUrl = qs "https://creds" ∧
      s'.log.filter Event.isGet =
        [Event.get [] none, Event.get (qs "https://creds") none]) ∧
    (∃ s' : ImgS3Uploader,
      handleReplyGetCreds envResolvingLater [StandardButton.Retry] unconfigured failedReply =
        some s' ∧
      s'.configCalls = 2 ∧
      s'.log.filter Event.isGet =
        [Event.get [] none, Event.get (qs "https://creds") none]) := by
  have hA := (handleReplyGetCreds_failure env0 [] started failedReply (by decide)).1
    (by decide)
  have hB := handleReplyGetCreds_failure envResolving [] unconfigured failedReply (by decide)
  have hC := handleReplyGetCreds_failure envResolvingLater [StandardButton.Retry] unconfigured
    failedReply (by decide)
  refine ⟨by decide, hA, ?_, ?_⟩
  · obtain ⟨s', h1, _, h3, _⟩ := hB.2.2.2 rfl rfl
    have hurl : s'.m_s3Settings.credsUrl = qs "https://creds" := by rw [h3]; rfl
    have hkey : s'.m_s3Settings.xApiKey = [] := by rw [h3]; rfl
    have hget := (hB.2.1 rfl s' h1).2.1 (by rw [hurl]; decide)
    refine ⟨s', h1, hurl, ?_⟩
    rw [hget, hurl, hkey]
    set_option maxRecDepth 100000 in decide
  · have hrun : ∃ s' : ImgS3Uploader,
        handleReplyGetCreds envResolvingLater [StandardButton.Retry] unconfigured failedReply =
          some s' := by
      apply Option.isSome_iff_exists.mp
      set_option maxRecDepth 100000 in decide
    obtain ⟨s', h1⟩ := hrun
    obtain ⟨⟨k, hk, h2, _, h4, h5, _, h7⟩, hget, _⟩ := hC.2.1 rfl s' h1
    have hk2 : k = 2 := by
      have hle : k ≤ 2 := by
        by_contra hgt
        have := h5 1 (by omega)
        revert this
        decide
      have hne : k ≠ 1 := by
        intro h1k
        subst h1k
        obtain ⟨a, ha1, ha2⟩ := h7 (by decide)
        simp at ha1
        exact ha2 ha1.symm
      omega
    subst hk2
    have hurl : s'.m_s3Settings.credsUrl = qs "https://creds" := by rw [h4]; rfl
    have hkey : s'.m_s3Settings.xApiKey = [] := by rw [h4]; rfl
    refine ⟨s', h1, by rw [h2]; rfl, ?_⟩
    rw [hget (by rw [hurl]; decide), hurl, hkey]
    set_option maxRecDepth 100000 in decide

/-! ## The delete token and the storage image name -/

theorem uploadToS3_fields (env : Env) (s s' : ImgS3Uploader) (response : QJsonDocument)
    (h : uploadToS3 env s response = some s') :
    s'.m_deleteToken = deleteTokenOf response ∧
      s'.m_storageImageName = s.m_storageImageName := by
  cases hm : s.m_networkAMUpload with
  | none =>
    simp only [uploadToS3, foldl_appendPart] at h
    simp [appendPart, hm] at h
  | some m =>
    rw [uploadToS3_eq env s response m hm] at h
    simp only [Option.some.injEq] at h
    subst h
    exact ⟨rfl, rfl⟩

theorem handleReplyGetCreds_failed_fields (env : Env) (answers : List StandardButton)
    (s s' : ImgS3Uploader) (reply : QNetworkReply)
    (herr : reply.error ≠ NetworkError.NoError)
    (h : handleReplyGetCreds env answers s reply = some s') :
    (s'.m_deleteToken = [] ∧ s'.m_storageImageName = []) ∨
      (s'.m_deleteToken = s.m_deleteToken ∧ s'.m_storageImageName = s.m_storageImageName) := by
  by_cases hempty : s.m_s3Settings.credsUrl = []
  · obtain ⟨t, _, h2, h3, _, hs'⟩ :=
      handleReplyGetCreds_resolved env answers s s' reply herr hempty h
    rw [hs']
    split
    · left
      have hu := upload_facts env (emit (emit t Event.hideWindow)
          (Event.setInfoLabelText (qs "Uploading Image...")))
      exact ⟨hu.2.2.1, hu.2.2.2.1⟩
    · right
      exact ⟨h2, h3⟩
  · have hlen : ¬ s.m_s3Settings.credsUrl.length = 0 := by
      intro h0
      exact hempty (List.length_eq_zero.mp h0)
    simp only [handleReplyGetCreds, herr, if_false, hlen, Option.some.injEq] at h
    subst h
    right
    exact ⟨rfl, rfl⟩

theorem handleReplyDeleteResource_fields (env : Env) (answer : StandardButton)
    (s : ImgS3Uploader) (reply : QNetworkReply) :
    ((handleReplyDeleteResource env answer s reply).m_deleteToken = [] ∧
        (handleReplyDeleteResource env answer s reply).m_storageImageName = []) ∨
      ((handleReplyDeleteResource env answer s reply).m_deleteToken = s.m_deleteToken ∧
        (handleReplyDeleteResource env answer s reply).m_storageImageName =
          s.m_storageImageName) := by
  by_cases h : reply.error = NetworkError.NoError ∨
      (reply.error ≠ NetworkError.NoError ∧ answer = StandardButton.Yes)
  · left
    have := handleReplyDeleteResource_removes env answer s reply h
    exact ⟨this.2.2.1, this.2.2.2⟩
  · right
    have h1 : reply.error ≠ NetworkError.NoError := fun he => h (Or.inl he)
    have h2 : answer ≠ StandardButton.Yes := fun ha => h (Or.inr ⟨h1, ha⟩)
    simp [handleReplyDeleteResource, h1, h2, emit]

theorem pairedStep_paired (env : Env) (s s' : ImgS3Uploader) (h : PairedStep env s s')
    (hs : paired s) : paired s' := by
  match h with
  | .upload _ =>
    have hu := upload_facts env s
    exact Or.inl ⟨hu.2.2.1, hu.2.2.2.1⟩
  | .handleReplyGetCreds _ _ answers reply herr hr =>
    rcases handleReplyGetCreds_failed_fields env answers s s' reply herr hr with h1 | h1
    · exact Or.inl h1
    · unfold paired
      rw [h1.1, h1.2]
      exact hs
  | .deleteResource _ fileName deleteToken hiff =>
    have hd := deleteResource_fields env s fileName deleteToken
    unfold paired
    rw [hd.2.1, hd.2.2.1]
    by_cases hf : fileName = []
    · exact Or.inl ⟨hiff.mp hf, hf⟩
    · exact Or.inr ⟨fun ht => hf (hiff.mpr ht), hf⟩
  | .handleReplyDeleteResource _ answer reply =>
    rcases handleReplyDeleteResource_fields env answer s reply with h1 | h1
    · exact Or.inl h1
    · unfold paired
      rw [h1.1, h1.2]
      exact hs
  | .removeImagePreview _ =>
    have hr := removeImagePreview_eq env s
    exact Or.inl ⟨hr.2.2.1, hr.2.2.2⟩

/-- C3, as amended: in every state a session reaches from a constructor by any
sequence of `upload()`, `handleReplyGetCreds` on a failed reply,
`deleteResource` with a file name and a delete token that are both empty or
both non-empty, `handleReplyDeleteResource` and `removeImagePreview`, the delete
token and the storage image name are both empty or both non-empty.  The other
calls set one of the two on its own: `uploadToS3` sets the delete token from
the document and leaves the storage image name as it is, and
`handleReplyPostUpload` leaves the delete token as it is and sets the storage
image name, to the empty string on a failed reply. -/
theorem paired_invariant (env : Env) :
    (∀ s : ImgS3Uploader, Reachable (PairedStep env) s → paired s) ∧
    (∀ (s s' : ImgS3Uploader) (response : QJsonDocument),
      uploadToS3 env s response = some s' →
        s'.m_deleteToken = deleteTokenOf response ∧
        s'.m_storageImageName = s.m_storageImageName) ∧
    (∀ (s : ImgS3Uploader) (reply : QNetworkReply),
      (handleReplyPostUpload env s reply).m_deleteToken = s.m_deleteToken ∧
      (reply.error ≠ NetworkError.NoError →
        (handleReplyPostUpload env s reply).m_storageImageName = [])) := by
  refine ⟨fun s hs => ?_, uploadToS3_fields env, fun s reply => ⟨?_, fun h => ?_⟩⟩
  · induction hs with
    | newUpload capture settings files => exact Or.inl ⟨rfl, rfl⟩
    | newDelete settings files => exact Or.inl ⟨rfl, rfl⟩
    | step s s' _ hstep ih => exact pairedStep_paired env s s' hstep ih
  · by_cases h : reply.error = NetworkError.NoError
    · exact (handleReplyPostUpload_ok env s reply h).2.2.2
    · rw [handleReplyPostUpload_failed env s reply h]
  · rw [handleReplyPostUpload_failed env s reply h]

theorem paired_invariant_witness :
    Reachable (PairedStep env0) (deleteResource env0 deleter (qs "def123.png") (qs "tok")) ∧
    paired (deleteResource env0 deleter (qs "def123.png") (qs "tok")) := by
  have hr : Reachable (PairedStep env0)
      (deleteResource env0 deleter (qs "def123.png") (qs "tok")) :=
    Reachable.step _ _ (Reachable.newDelete _ _)
      (PairedStep.deleteResource _ _ _ (by decide))
  exact ⟨hr, (paired_invariant env0).1 _ hr⟩

/-- C3, counterexample: after `upload()` and the credential reply of the
example, the delete token of the session is `tok` and its storage image name
is empty. -/
theorem deleteToken_without_name :
    handleReplyGetCreds env0 [] started (credsReply docExample) = some credsFetched ∧
    Reachable (Step env0) credsFetched ∧
    credsFetched.m_deleteToken = qs "tok" ∧
    credsFetched.m_storageImageName = [] ∧
    ¬ paired credsFetched := by
  have h : handleReplyGetCreds env0 [] started (credsReply docExample) = some credsFetched := by
    set_option maxRecDepth 100000 in decide
  refine ⟨h, ?_, ?_, ?_, ?_⟩
  · exact Reachable.step _ _
      (Reachable.step _ _ (Reachable.newUpload _ _ _) (Step.upload _))
      (Step.handleReplyGetCreds _ _ [] _ h)
  · set_option maxRecDepth 100000 in decide
  · set_option maxRecDepth 100000 in decide
  · set_option maxRecDepth 100000 in decide

end S3
